import Mathlib

/-!
# MATRIX_AND_SETS: a shallow embedding of `Matrix.js`, `Vector.js` and `ExtendedSet.js`

The JavaScript class `Matrix` is embedded as Lean functions over exact rational
cells.  Every method that can throw returns `Except Err _`; `for` loops are
state-passing folds (`forLoop`); array reads follow the JavaScript rules
(`a[i]` past the end is `undefined`, reading a property of `undefined` throws a
`TypeError`).

Numbers.  A JavaScript number is an IEEE 754 double; the embedding computes with exact
numbers and does not round, overflow or underflow.  The statements about the code say
which cells a method reads, which operations it applies to them, what shape the result
has and which error is thrown.  Identities of exact arithmetic (such as the determinant
of the mathematical library, used in the lemmas to show that `getDeterminant` and
`getInverse` return) are facts about the embedding; no statement about the code asserts
that its doubles satisfy them.

The class `Vector` is embedded over any field of numbers `R`, with `Math.sqrt` as a
parameter of `magnitude` and `normalize`, so that its statements can be read over the
rationals and over the reals.  The class `ExtendedSet` is embedded as the list of the
elements of a set in iteration order.
-/

/-- Square matrices over the rationals in the sense of the mathematical library,
used to state what `getDeterminant` computes. -/
abbrev SquareMat (n : ℕ) : Type := Matrix (Fin n) (Fin n) ℚ

namespace MatrixAndSets

/-! ## Values, errors and loops -/

/-- Outcomes of a call that does not return.
* `error msg` is `throw new Error(msg)`;
* `typeError` is the engine's `TypeError` raised on reading a property of `undefined`;
* `outsideModel` marks a step whose JavaScript result is not an exact number
  (`NaN` from arithmetic on `undefined`, a write that would make an array sparse);
* `outOfFuel` marks an exhausted recursion budget of `getDeterminantFuel`. -/
inductive Err where
  | error (msg : String)
  | typeError
  | outsideModel
  | outOfFuel
  deriving DecidableEq, Repr

/-- Decidable equality of results, so that closed calls can be compared. -/
instance instDecidableEqExcept {ε α : Type} [DecidableEq ε] [DecidableEq α] :
    DecidableEq (Except ε α) :=
  fun a b => match a, b with
  | .ok x, .ok y =>
    if h : x = y then isTrue (by rw [h]) else isFalse (fun h2 => h (Except.ok.inj h2))
  | .error x, .error y =>
    if h : x = y then isTrue (by rw [h]) else isFalse (fun h2 => h (Except.error.inj h2))
  | .ok _, .error _ => isFalse (fun h => Except.noConfusion h)
  | .error _, .ok _ => isFalse (fun h => Except.noConfusion h)

/-- JavaScript values that can be handed to the constructors. -/
inductive JSVal where
  | undefined
  | null
  | bool (b : Bool)
  | num (q : ℚ)
  | str (s : String)
  | arr (xs : List JSVal)

namespace JSVal

/-- The test `Array.isArray(v)`. -/
def isArray : JSVal → Bool
  | arr _ => true
  | _ => false

/-- The test `typeof v === "number"`. -/
def isNumber : JSVal → Bool
  | num _ => true
  | _ => false

/-- The elements of an array value (no elements for any other value). -/
def elems : JSVal → List JSVal
  | arr xs => xs
  | _ => []

/-- The number held by a value of type number. -/
def toNum? : JSVal → Option ℚ
  | num q => some q
  | _ => none

/-- A cell that is a number or `undefined`, as a JavaScript value. -/
def ofCell : Option ℚ → JSVal
  | some q => num q
  | none => undefined

/-- A working array of rows (`newArr`, `minor`, `inverse`, ...) as a JavaScript value. -/
def ofRows (g : List (List (Option ℚ))) : JSVal :=
  arr (g.map (fun row => arr (row.map ofCell)))

/-- A grid of numbers as a JavaScript value. -/
def ofGrid (g : List (List ℚ)) : JSVal :=
  arr (g.map (fun row => arr (row.map num)))

/-- The value of a string of decimal digits. -/
def digitsValue (ds : List Char) : Nat :=
  ds.foldl (fun n d => 10 * n + (d.toNat - 48)) 0

/-- White space and line terminators that `Number(string)` strips from both ends:
tab to carriage return, the space, the no-break space, U+1680, U+2000 to U+200A, the
line and paragraph separators, U+202F, U+205F, U+3000 and the byte order mark. -/
def isSpace (c : Char) : Bool :=
  c.toNat == 32 || (9 ≤ c.toNat && c.toNat ≤ 13) || c.toNat == 160 ||
  c.toNat == 5760 || (8192 ≤ c.toNat && c.toNat ≤ 8202) || c.toNat == 8232 ||
  c.toNat == 8233 || c.toNat == 8239 || c.toNat == 8287 || c.toNat == 12288 ||
  c.toNat == 65279

/-- An unsigned decimal literal: `digits`, `digits.digits`, `digits.` or `.digits`. -/
def unsignedDecimal (cs : List Char) : Option ℚ :=
  let intPart := cs.takeWhile Char.isDigit
  match cs.dropWhile Char.isDigit with
  | [] => if intPart.isEmpty then none else some (digitsValue intPart : ℚ)
  | c :: frac =>
    if c.toNat == 46 && frac.all Char.isDigit && !(intPart.isEmpty && frac.isEmpty) then
      some ((digitsValue intPart : ℚ) + (digitsValue frac : ℚ) / 10 ^ frac.length)
    else none

/-- The coercion `Number(s)` of a string: the empty or blank string is `0`, a plain decimal
literal with an optional sign is its value, and text that holds no digit and is not
`Infinity` with an optional sign is `NaN` (every numeric literal but `Infinity` holds
a digit).  The remaining texts (the exponent and radix-prefixed notations, `Infinity`,
and text that mixes digits with other characters) are left outside the model. -/
def stringToNumber (s : String) : Except Err (Option ℚ) :=
  let cs := ((s.toList.dropWhile isSpace).reverse.dropWhile isSpace).reverse
  match cs with
  | [] => pure (some 0)
  | c :: rest =>
    let unsigned := if c.toNat == 43 || c.toNat == 45 then rest else cs
    let parsed :=
      if c.toNat == 43 then unsignedDecimal rest
      else if c.toNat == 45 then (unsignedDecimal rest).map (fun q => -q)
      else unsignedDecimal cs
    match parsed with
    | some q => pure (some q)
    | none =>
      if cs.any Char.isDigit || unsigned == "Infinity".toList then throw Err.outsideModel
      else pure none

/-- The coercion `Number(v)`, applied by `isNaN(v)` and by `*`; `none` is `NaN`.
Arrays are left outside the model. -/
def toNumber : JSVal → Except Err (Option ℚ)
  | undefined => pure none
  | null => pure (some 0)
  | bool b => pure (some (if b then 1 else 0))
  | num q => pure (some q)
  | str s => stringToNumber s
  | arr _ => throw Err.outsideModel

end JSVal

/-- The loop `for (let i = 0; i < n; i++) body(i)`, threading the variables of the
loop as a state. -/
def forLoop {σ : Type} (n : Nat) (body : Nat → σ → Except Err σ) (s : σ) : Except Err σ :=
  match n with
  | 0 => pure s
  | k + 1 => do
    let s' ← forLoop k body s
    body k s'

/-- A value used as an operand of `+`, `-`, `*`, `/`: `undefined` gives `NaN`,
which is outside the exact numbers. -/
def toNumber (x : Option ℚ) : Except Err ℚ :=
  match x with
  | some q => pure q
  | none => throw Err.outsideModel

/-- The read `g[i][j]` on an array of rows: `TypeError` when `g[i]` is `undefined`,
`undefined` when `j` is past the end of the row. -/
def readCell {α : Type} (g : List (List α)) (i j : Nat) : Except Err (Option α) :=
  match g[i]? with
  | none => throw Err.typeError
  | some row => pure row[j]?

/-- The write `g[i][j] = v` on a preallocated array of rows. -/
def setCell (g : List (List (Option ℚ))) (i j : Nat) (v : Option ℚ) :
    Except Err (List (List (Option ℚ))) :=
  match g[i]? with
  | none => throw Err.typeError
  | some row =>
    if j < row.length then pure (g.set i (row.set j v)) else throw Err.outsideModel

/-! ## The class `Matrix` -/

/-- An instance of the class: the field `arr`. -/
structure Matrix where
  arr : List (List ℚ)
  deriving DecidableEq, Repr

/-- An operand of a binary method: an instance of `Matrix`, or any other value. -/
inductive Operand where
  | matrix (m : Matrix)
  | other (v : JSVal)

namespace Matrix

/-- The constructor `new Matrix(array)`. -/
def new (array : JSVal) : Except Err Matrix :=
  if !array.isArray || array.elems.length == 0 then
    throw (Err.error "Value must be a non-empty array")
  else if !array.elems.all (fun row => row.isArray) then
    throw (Err.error "Array must be a 2D array")
  else
    let rowLength := (array.elems.headD JSVal.undefined).elems.length
    if array.elems.any (fun row => row.elems.length != rowLength) then
      throw (Err.error "All rows must have the same length")
    else if array.elems.any (fun row => row.elems.any (fun num => !num.isNumber)) then
      throw (Err.error "All elements must be numbers")
    else
      pure ⟨array.elems.map (fun row => row.elems.filterMap JSVal.toNum?)⟩

/-- The read `this.arr[i][j]`. -/
def cell (this : Matrix) (i j : Nat) : Except Err (Option ℚ) :=
  readCell this.arr i j

/-- The method `getDimensions()`: `[this.arr.length, this.arr[0].length]`. -/
def getDimensions (this : Matrix) : Except Err (Nat × Nat) :=
  match this.arr[0]? with
  | none => throw Err.typeError
  | some row0 => pure (this.arr.length, row0.length)

/-- The method `isSquare()`. -/
def isSquare (this : Matrix) : Except Err Bool := do
  let (row, col) ← this.getDimensions
  pure (row == col)

/-- The method `isNullMatrix()`; the state is the value returned so far, if any. -/
def isNullMatrix (this : Matrix) : Except Err Bool := do
  let (row, col) ← this.getDimensions
  let ret ← forLoop row (fun i ret =>
    forLoop col (fun j ret =>
      match ret with
      | some b => pure (some b)
      | none => do
        let x ← this.cell i j
        if x ≠ some 0 then pure (some false) else pure none) ret) none
  match ret with
  | some b => pure b
  | none => pure true

/-- The method `getLeadingDiagonal()`. -/
def getLeadingDiagonal (this : Matrix) : Except Err (List (Option ℚ)) := do
  let (row, _) ← this.getDimensions
  let leadingDiagonal : List (Option ℚ) := []
  if !(← this.isSquare) then pure leadingDiagonal
  else
    forLoop row (fun i leadingDiagonal => do
      let x ← this.cell i i
      pure (leadingDiagonal ++ [x])) leadingDiagonal

/-- The method `getRow(index)` for an integer `index`; the result is `this.arr[index]`. -/
def getRow (this : Matrix) (index : Int) : Except Err (Option (List ℚ)) := do
  let (row, _) ← this.getDimensions
  if index > (row : Int) - 1 ∨ index < 0 then throw (Err.error "Invalid index")
  else pure this.arr[index.toNat]?

/-- The method `getColumn(index)` for an integer `index`.  The inner loop pushes
`this.arr[i][index]` and leaves at once (`break`); its state is
`(columns, left)`, where `left` records that the loop has been left. -/
def getColumn (this : Matrix) (index : Int) : Except Err (List (Option ℚ)) := do
  let (row, col) ← this.getDimensions
  let columns : List (Option ℚ) := []
  if index > (col : Int) - 1 ∨ index < 0 then throw (Err.error "Invalid index")
  else
    forLoop row (fun i columns => do
      let (columns, _) ← forLoop col (fun _ (st : List (Option ℚ) × Bool) =>
        if st.2 then pure st
        else do
          let x ← this.cell i index.toNat
          pure (st.1 ++ [x], true)) (columns, false)
      pure columns) columns

/-- The method `isDiagonal()`; the state is `(isDiagonalMatrix, counter)`. -/
def isDiagonal (this : Matrix) : Except Err Bool := do
  let (row, col) ← this.getDimensions
  let diagonal ← this.getLeadingDiagonal
  let isDiagonalMatrix := if diagonal.contains (some 0) then false else true
  let (isDiagonalMatrix, _) ← forLoop col (fun i (st : Bool × Nat) => do
    let flag ← forLoop row (fun j flag =>
      if j = st.2 then pure flag
      else do
        let x ← this.cell i j
        if x ≠ some 0 then pure false else pure flag) st.1
    pure (flag, st.2 + 1)) (isDiagonalMatrix, 0)
  pure isDiagonalMatrix

/-- The method `isUnitMatrix()`. -/
def isUnitMatrix (this : Matrix) : Except Err Bool := do
  let dimension ← this.getLeadingDiagonal
  if dimension.all (fun num => num == some 1) then this.isDiagonal else pure false

/-- The method `getTypeOfMatrix()`. -/
def getTypeOfMatrix (this : Matrix) : Except Err String := do
  let (row, col) ← this.getDimensions
  if row = 1 ∧ col > 1 then pure "row"
  else if col = 1 ∧ row > 1 then pure "column"
  else if (← this.isNullMatrix) then pure "zero"
  else if (← this.isUnitMatrix) then pure "unit"
  else if (← this.isDiagonal) then pure "diagonal"
  else if (← this.isSquare) then pure "square"
  else pure "rectangular"

/-- The method `isConformalTo(matrix)`. -/
def isConformalTo (this : Matrix) (matrix : Operand) : Except Err Bool :=
  match matrix with
  | .other _ => throw (Err.error "Value Must be of type Matrix")
  | .matrix matrix => do
    let (row1, col1) ← this.getDimensions
    let (row2, col2) ← matrix.getDimensions
    if row1 = row2 ∧ col1 = col2 then pure true else pure false

/-- The common body of `plus` and `minus`, which differ only in the operator `op`
applied to `this.arr[i][j]` and `matrix.arr[i][j]`. -/
def cellwise (op : ℚ → ℚ → ℚ) (this : Matrix) (matrix : Operand) : Except Err Matrix :=
  match matrix with
  | .other _ => throw (Err.error "Value Must be of type Matrix")
  | .matrix matrix => do
    if !(← this.isConformalTo (.matrix matrix)) then
      throw (Err.error "Matrices must be conformal")
    else
      let (row, col) ← this.getDimensions
      let newArr ← forLoop row (fun i (newArr : List (List (Option ℚ))) => do
        let newRow ← forLoop col (fun j (newRow : List (Option ℚ)) => do
          let a ← this.cell i j
          let b ← matrix.cell i j
          pure (newRow ++ [some (op (← toNumber a) (← toNumber b))])) []
        pure (newArr ++ [newRow])) []
      Matrix.new (JSVal.ofRows newArr)

/-- The method `plus(matrix)`. -/
def plus (this : Matrix) (matrix : Operand) : Except Err Matrix :=
  cellwise (fun a b => a + b) this matrix

/-- The method `minus(matrix)`. -/
def minus (this : Matrix) (matrix : Operand) : Except Err Matrix :=
  cellwise (fun a b => a - b) this matrix

/-- The method `scalarMultiplyBy(number)`; `isNaN(number)` and `*` both see
`Number(number)`. -/
def scalarMultiplyBy (this : Matrix) (number : JSVal) : Except Err Matrix := do
  match (← number.toNumber) with
  | none => throw (Err.error "Value must be a number")
  | some k =>
    let (row, col) ← this.getDimensions
    let newArr ← forLoop row (fun i (newArr : List (List (Option ℚ))) => do
      let newRow ← forLoop col (fun j (newRow : List (Option ℚ)) => do
        let a ← this.cell i j
        pure (newRow ++ [some ((← toNumber a) * k)])) []
      pure (newArr ++ [newRow])) []
    Matrix.new (JSVal.ofRows newArr)

/-- The method `multipliedBy(matrix)`. -/
def multipliedBy (this : Matrix) (matrix : Operand) : Except Err Matrix :=
  match matrix with
  | .other _ => throw (Err.error "Value Must be of type Matrix")
  | .matrix matrix => do
    if (← matrix.getTypeOfMatrix) = "unit" then Matrix.new (JSVal.ofGrid this.arr)
    else
      let (row1, col1) ← this.getDimensions
      let (row2, col2) ← matrix.getDimensions
      if col1 ≠ row2 then
        throw (Err.error "Matrices are not conformal for multiplication")
      else
        let newArr : List (List (Option ℚ)) :=
          List.replicate row1 (List.replicate col2 (some 0))
        let newArr ← forLoop row1 (fun i newArr =>
          forLoop col2 (fun j newArr =>
            forLoop col1 (fun k newArr => do
              let cur ← readCell newArr i j
              let a ← this.cell i k
              let b ← matrix.cell k j
              setCell newArr i j
                (some ((← toNumber cur.join) + (← toNumber a) * (← toNumber b)))) newArr)
            newArr) newArr
        Matrix.new (JSVal.ofRows newArr)

/-- The method `getTranspose()`. -/
def getTranspose (this : Matrix) : Except Err Matrix := do
  let (row, col) ← this.getDimensions
  let newArr : List (List (Option ℚ)) := List.replicate col (List.replicate row (some 0))
  let newArr ← forLoop row (fun i newArr =>
    forLoop col (fun j newArr => do
      let x ← this.cell i j
      setCell newArr j i x) newArr) newArr
  Matrix.new (JSVal.ofRows newArr)

/-- The method `getMinor(targetRow, targetColumn)`. -/
def getMinor (this : Matrix) (targetRow targetColumn : Nat) : Except Err Matrix := do
  if !(← this.isSquare) then throw (Err.error "Matrix must be square")
  else
    let (row, col) ← this.getDimensions
    if row = 1 then Matrix.new (JSVal.ofGrid this.arr)
    else
      let minor ← forLoop row (fun i (minor : List (List (Option ℚ))) =>
        if i = targetRow then pure minor
        else do
          let last ← forLoop col (fun j (last : List (Option ℚ)) =>
            if j = targetColumn then pure last
            else do
              let x ← this.cell i j
              pure (last ++ [x])) []
          pure (minor ++ [last])) []
      Matrix.new (JSVal.ofRows minor)

/-- The method `getCofactor(targetRow, targetColumn)`, with the determinant of the
minor computed by `det`. -/
def getCofactorWith (det : Matrix → Except Err ℚ) (this : Matrix)
    (targetRow targetColumn : Nat) : Except Err ℚ := do
  if !(← this.isSquare) then throw (Err.error "Matrix must be square")
  else
    let minor ← this.getMinor targetRow targetColumn
    pure ((-1) ^ (targetRow + targetColumn) * (← det minor))

/-- The method `getDeterminant()` with a bound on the depth of the recursion through
`getCofactor`. -/
def getDeterminantFuel : Nat → Matrix → Except Err ℚ
  | 0, _ => throw Err.outOfFuel
  | fuel + 1, this => do
    if !(← this.isSquare) then throw (Err.error "Matrix must be square")
    else
      let (row, _) ← this.getDimensions
      if row = 1 then toNumber (← this.cell 0 0)
      else if row = 2 then
        pure ((← toNumber (← this.cell 0 0)) * (← toNumber (← this.cell 1 1))
          - (← toNumber (← this.cell 0 1)) * (← toNumber (← this.cell 1 0)))
      else
        forLoop row (fun i determinant => do
          let a ← this.cell 0 i
          let c ← getCofactorWith (getDeterminantFuel fuel) this 0 i
          pure (determinant + (← toNumber a) * c)) 0

/-- The method `getDeterminant()`: each recursive call is on a minor with one row
fewer, so the row count (plus one) bounds the depth. -/
def getDeterminant (this : Matrix) : Except Err ℚ :=
  getDeterminantFuel (this.arr.length + 1) this

/-- The method `getCofactor(targetRow, targetColumn)`. -/
def getCofactor (this : Matrix) (targetRow targetColumn : Nat) : Except Err ℚ :=
  getCofactorWith getDeterminant this targetRow targetColumn

/-- The method `getInverse()`. -/
def getInverse (this : Matrix) : Except Err Matrix := do
  if !(← this.isSquare) then throw (Err.error "Matrix must be square")
  else
    let determinant ← this.getDeterminant
    if determinant = 0 then throw (Err.error "Matrix is singular")
    else
      let (row, col) ← this.getDimensions
      if row = 1 then
        Matrix.new (JSVal.ofRows [[some (1 / (← toNumber (← this.cell 0 0)))]])
      else
        let inverse : List (List (Option ℚ)) :=
          List.replicate row (List.replicate col (some 0))
        let inverse ← forLoop row (fun i inverse =>
          forLoop col (fun j inverse => do
            let c ← this.getCofactor j i
            setCell inverse i j (some (c / determinant))) inverse) inverse
        Matrix.new (JSVal.ofRows inverse)

/-- The method `getAdjoint()`. -/
def getAdjoint (this : Matrix) : Except Err Matrix := do
  if !(← this.isSquare) then throw (Err.error "Matrix must be square")
  else
    let (row, col) ← this.getDimensions
    if row = 1 then Matrix.new (JSVal.ofRows [[some 1]])
    else
      let adjoint : List (List (Option ℚ)) :=
        List.replicate row (List.replicate col (some 0))
      let adjoint ← forLoop row (fun i adjoint =>
        forLoop col (fun j adjoint => do
          let c ← this.getCofactor j i
          setCell adjoint i j (some c)) adjoint) adjoint
      Matrix.new (JSVal.ofRows adjoint)

end Matrix

/-! ## The class `Vector` -/

/-- An instance of the class `Vector` over a number type `R`: the field `arr`. -/
structure Vector (R : Type) where
  arr : List R
  deriving DecidableEq, Repr

/-- An operand of a binary method of `Vector`: an instance of `Vector`, or any other
value. -/
inductive VectorOperand (R : Type) where
  | vector (v : Vector R)
  | other (v : JSVal)

/-- A number of type `R` or `undefined` used as an operand of `+`, `-`, `*`:
`undefined` gives `NaN`, which is outside the exact numbers. -/
def numberOf {R : Type} (x : Option R) : Except Err R :=
  match x with
  | some q => pure q
  | none => throw Err.outsideModel

/-- The call `array.map((num, index) => f(num, index))`, from position `index` on. -/
def mapWithIndex {α β : Type} (f : α → Nat → Except Err β) :
    List α → Nat → Except Err (List β)
  | [], _ => pure []
  | num :: rest, index => do
    let y ← f num index
    let ys ← mapWithIndex f rest (index + 1)
    pure (y :: ys)

/-- The call `array.reduce((acc, num, index) => f(acc, num, index), init)`, from
position `index` on. -/
def reduceWithIndex {α β : Type} (f : β → α → Nat → Except Err β) :
    List α → Nat → β → Except Err β
  | [], _, acc => pure acc
  | num :: rest, index, acc => do
    let acc' ← f acc num index
    reduceWithIndex f rest (index + 1) acc'

namespace Vector

/-- The constructor `new Vector(array)`.  The argument is `none` for a value that is
not an array; an element of the array is `none` when it is not of type number. -/
def new {R : Type} (array : Option (List (Option R))) : Except Err (Vector R) :=
  match array with
  | none => throw (Err.error "Value must be a non-empty array")
  | some elems =>
    if elems.length == 0 then throw (Err.error "Value must be a non-empty array")
    else if elems.any (fun num => num.isNone) then
      throw (Err.error "All elements must be numbers")
    else pure ⟨elems.filterMap id⟩

/-- The method `getDimensions()`. -/
def getDimensions {R : Type} (this : Vector R) : Nat :=
  this.arr.length

/-- The method `add(vector)`. -/
def add {R : Type} [Field R] (this : Vector R) (vector : VectorOperand R) :
    Except Err (Vector R) :=
  match vector with
  | .other _ => throw (Err.error "Value must be of type Vector")
  | .vector vector =>
    if this.getDimensions ≠ vector.getDimensions then
      throw (Err.error "Vectors must be of the same dimension")
    else do
      let newArr ← mapWithIndex (fun num index => do
        pure (num + (← numberOf vector.arr[index]?))) this.arr 0
      Vector.new (some (newArr.map some))

/-- The method `subtract(vector)`. -/
def subtract {R : Type} [Field R] (this : Vector R) (vector : VectorOperand R) :
    Except Err (Vector R) :=
  match vector with
  | .other _ => throw (Err.error "Value must be of type Vector")
  | .vector vector =>
    if this.getDimensions ≠ vector.getDimensions then
      throw (Err.error "Vectors must be of the same dimension")
    else do
      let newArr ← mapWithIndex (fun num index => do
        pure (num - (← numberOf vector.arr[index]?))) this.arr 0
      Vector.new (some (newArr.map some))

/-- The method `multiplyByScalar(scalar)`; `scalar` is `none` when it is not of type
number. -/
def multiplyByScalar {R : Type} [Field R] (this : Vector R) (scalar : Option R) :
    Except Err (Vector R) :=
  match scalar with
  | none => throw (Err.error "Value must be a number")
  | some scalar => Vector.new (some (this.arr.map (fun num => some (num * scalar))))

/-- The method `dotProduct(vector)`. -/
def dotProduct {R : Type} [Field R] (this : Vector R) (vector : VectorOperand R) :
    Except Err R :=
  match vector with
  | .other _ => throw (Err.error "Value must be of type Vector")
  | .vector vector =>
    if this.getDimensions ≠ vector.getDimensions then
      throw (Err.error "Vectors must be of the same dimension")
    else
      reduceWithIndex (fun acc num index => do
        pure (acc + num * (← numberOf vector.arr[index]?))) this.arr 0 0

/-- The method `magnitude()`, with `Math.sqrt` of the host as `sqrt`. -/
def magnitude {R : Type} [Field R] (sqrt : R → R) (this : Vector R) : R :=
  sqrt (this.arr.foldl (fun acc num => acc + num * num) 0)

/-- The method `normalize()`, with `Math.sqrt` of the host as `sqrt`. -/
def normalize {R : Type} [Field R] [DecidableEq R] (sqrt : R → R) (this : Vector R) :
    Except Err (Vector R) :=
  let magnitude := this.magnitude sqrt
  if magnitude = 0 then throw (Err.error "Cannot normalize a zero vector")
  else Vector.new (some (this.arr.map (fun num => some (num / magnitude))))

end Vector

/-! ## The class `ExtendedSet` -/

/-- An instance of `Set` or of `ExtendedSet`: its elements in iteration (insertion)
order. -/
structure ExtendedSet (α : Type) where
  items : List α
  deriving DecidableEq, Repr

namespace ExtendedSet

/-- The effect of `Set.prototype.add` on the elements: a value that is present is
not added again. -/
def insert {α : Type} [DecidableEq α] (items : List α) (item : α) : List α :=
  if item ∈ items then items else items ++ [item]

/-- The constructor `new ExtendedSet(iterable)`: `super(iterable)` adds the values of
the iterable in order. -/
def new {α : Type} [DecidableEq α] (iterable : List α) : ExtendedSet α :=
  ⟨iterable.foldl insert []⟩

/-- The method `has(item)` of `Set`. -/
def has {α : Type} [DecidableEq α] (this : ExtendedSet α) (item : α) : Bool :=
  decide (item ∈ this.items)

/-- The method `union(otherSet)`. -/
def union {α : Type} [DecidableEq α] (this otherSet : ExtendedSet α) : ExtendedSet α :=
  ExtendedSet.new (this.items ++ otherSet.items)

/-- The method `intersection(otherSet)`. -/
def intersection {α : Type} [DecidableEq α] (this otherSet : ExtendedSet α) :
    ExtendedSet α :=
  ExtendedSet.new (this.items.filter (fun item => otherSet.has item))

/-- The method `difference(otherSet)`. -/
def difference {α : Type} [DecidableEq α] (this otherSet : ExtendedSet α) :
    ExtendedSet α :=
  ExtendedSet.new (this.items.filter (fun item => !otherSet.has item))

/-- The method `isSubsetOf(otherSet)`. -/
def isSubsetOf {α : Type} [DecidableEq α] (this otherSet : ExtendedSet α) : Bool :=
  this.items.all (fun item => otherSet.has item)

/-- The method `isSupersetOf(otherSet)`. -/
def isSupersetOf {α : Type} [DecidableEq α] (this otherSet : ExtendedSet α) : Bool :=
  otherSet.items.all (fun item => this.has item)

end ExtendedSet

/-! ## Vocabulary of the statements -/

/-- The array of `r` rows of `c` cells whose cell `[i][j]` is `f i j`. -/
def tabulate {α : Type} (r c : Nat) (f : Nat → Nat → α) : List (List α) :=
  (List.range r).map (fun i => (List.range c).map (fun j => f i j))

/-- The cell `[i][j]` of an array of rows, `d` where there is none. -/
def entryD {α : Type} (d : α) (g : List (List α)) (i j : Nat) : α :=
  (g.getD i []).getD j d

/-- An array of `r` rows that all have `c` cells. -/
def Shape {α : Type} (g : List (List α)) (r c : Nat) : Prop :=
  g.length = r ∧ ∀ row ∈ g, row.length = c

instance instDecidableShape {α : Type} (g : List (List α)) (r c : Nat) :
    Decidable (Shape g r c) := by
  unfold Shape; infer_instance

/-- The index of the `i`-th row (or column) that remains once index `t` is deleted. -/
def skip (t i : Nat) : Nat :=
  if i < t then i else i + 1

/-- The number of rows (or columns) that remain of `n` once index `t` is deleted. -/
def minorSize (n t : Nat) : Nat :=
  if t < n then n - 1 else n

/-- A matrix of `r` rows and `c` columns: `r` rows that all have `c` cells. -/
def Matrix.HasShape (m : Matrix) (r c : Nat) : Prop :=
  Shape m.arr r c

instance instDecidableHasShape (m : Matrix) (r c : Nat) : Decidable (m.HasShape r c) := by
  unfold Matrix.HasShape; infer_instance

/-- The row count of a matrix, `this.arr.length`. -/
def Matrix.rows (m : Matrix) : Nat :=
  m.arr.length

/-- The column count of a matrix, `this.arr[0].length`. -/
def Matrix.columns (m : Matrix) : Nat :=
  (m.arr.headD []).length

/-- A matrix that the constructor returns for some argument. -/
def Matrix.Accepted (m : Matrix) : Prop :=
  ∃ array, Matrix.new array = Except.ok m

/-- The row part of the data-model invariant: at least one row, and every row has as
many cells as the column count. -/
def Matrix.RowsAgree (m : Matrix) : Prop :=
  1 ≤ m.rows ∧ ∀ row ∈ m.arr, row.length = m.columns

/-- The number in cell `[i][j]` of a matrix (`0` outside the grid). -/
def Matrix.entry (m : Matrix) (i j : Nat) : ℚ :=
  entryD 0 m.arr i j

/-- The `n`×`n` square matrix of the mathematical library with cell `[i][j]` equal to
`a i j`. -/
def squareOf (n : Nat) (a : Nat → Nat → ℚ) : SquareMat n :=
  fun i j => a i j

/-- The cofactor of cell `[tr][tc]` of the `n`×`n` grid `a`: the signed determinant of
the grid without row `tr` and column `tc`. -/
def cofactorOf (n : Nat) (a : Nat → Nat → ℚ) (tr tc : Nat) : ℚ :=
  (-1) ^ (tr + tc) * (squareOf (n - 1) (fun i j => a (skip tr i) (skip tc j))).det

end MatrixAndSets

namespace MatrixAndSets

/-! ## Evaluation rules -/

@[simp] theorem pure_eq_ok {α : Type} (a : α) : (pure a : Except Err α) = Except.ok a := rfl

@[simp] theorem throw_eq_error {α : Type} (e : Err) :
    (throw e : Except Err α) = Except.error e := rfl

@[simp] theorem ok_bind {α β : Type} (a : α) (f : α → Except Err β) :
    (Except.ok a >>= f) = f a := rfl

@[simp] theorem error_bind {α β : Type} (e : Err) (f : α → Except Err β) :
    (Except.error e >>= f) = Except.error e := rfl

@[simp] theorem forLoop_zero {σ : Type} (body : Nat → σ → Except Err σ) (s : σ) :
    forLoop 0 body s = Except.ok s := rfl

theorem forLoop_succ {σ : Type} (k : Nat) (body : Nat → σ → Except Err σ) (s : σ) :
    forLoop (k + 1) body s = (forLoop k body s >>= body k) := rfl

/-- The loop rule: an invariant that holds on entry and is carried by every
iteration holds on exit, and the loop does not throw. -/
theorem forLoop_inv {σ : Type} (P : Nat → σ → Prop) (n : Nat)
    (body : Nat → σ → Except Err σ) (s : σ) (h0 : P 0 s)
    (hstep : ∀ i t, i < n → P i t → ∃ t', body i t = Except.ok t' ∧ P (i + 1) t') :
    ∃ t, forLoop n body s = Except.ok t ∧ P n t := by
  induction n with
  | zero => exact ⟨s, rfl, h0⟩
  | succ k ih =>
    obtain ⟨t, ht, hP⟩ := ih (fun i t hi => hstep i t (Nat.lt_succ_of_lt hi))
    obtain ⟨t', ht', hP'⟩ := hstep k t (Nat.lt_succ_self k) hP
    exact ⟨t', by rw [forLoop_succ, ht, ok_bind, ht'], hP'⟩

/-- A loop whose iterations each compute the next state as a function of the index. -/
theorem forLoop_eq {σ : Type} (F : Nat → σ) (n : Nat)
    (body : Nat → σ → Except Err σ)
    (hstep : ∀ i, i < n → body i (F i) = Except.ok (F (i + 1))) :
    forLoop n body (F 0) = Except.ok (F n) := by
  obtain ⟨t, ht, hP⟩ := forLoop_inv (fun i t => t = F i) n body (F 0) rfl
    (fun i t hi h => ⟨F (i + 1), by rw [h, hstep i hi], rfl⟩)
  rw [ht, hP]

/-! ## Arrays of rows -/

theorem tabulate_length {α : Type} (r c : Nat) (f : Nat → Nat → α) :
    (tabulate r c f).length = r := by
  simp [tabulate]

theorem tabulate_getElem? {α : Type} (r c : Nat) (f : Nat → Nat → α) (i : Nat) :
    (tabulate r c f)[i]? = if i < r then some ((List.range c).map (fun j => f i j)) else none := by
  unfold tabulate
  by_cases h : i < r
  · simp [h, List.getElem?_map, List.getElem?_range h]
  · simp [h, List.getElem?_map]
    omega

theorem tabulate_shape {α : Type} (r c : Nat) (f : Nat → Nat → α) :
    Shape (tabulate r c f) r c := by
  refine ⟨tabulate_length r c f, ?_⟩
  intro row hrow
  simp only [tabulate, List.mem_map] at hrow
  obtain ⟨i, _, rfl⟩ := hrow
  simp

theorem list_eq_map_range {α : Type} (d : α) (l : List α) :
    l = (List.range l.length).map (fun j => l.getD j d) := by
  apply List.ext_getElem?
  intro j
  by_cases h : j < l.length
  · simp [List.getElem?_map, List.getElem?_range h, List.getD_eq_getElem?_getD, List.getElem?_eq_getElem h]
  · simp [List.getElem?_map, h]
    rw [List.getElem?_eq_none (by omega), List.getElem?_eq_none (by simp; omega)]
    rfl

theorem shape_eq_tabulate {α : Type} (d : α) (g : List (List α)) (r c : Nat)
    (h : Shape g r c) : g = tabulate r c (entryD d g) := by
  obtain ⟨hr, hc⟩ := h
  subst hr
  unfold tabulate entryD
  apply List.ext_getElem?
  intro i
  by_cases hi : i < g.length
  · simp only [List.getElem?_map, List.getElem?_range hi, Option.map_some',
      List.getElem?_eq_getElem hi, Option.some.injEq]
    have hlen := hc g[i] (List.getElem_mem hi)
    have := list_eq_map_range d g[i]
    rw [hlen] at this
    simpa [List.getD_eq_getElem?_getD, List.getElem?_eq_getElem hi] using this
  · rw [List.getElem?_eq_none (by omega), List.getElem?_eq_none (by simp; omega)]

theorem tabulate_congr {α : Type} (r c : Nat) (f f' : Nat → Nat → α)
    (h : ∀ i j, i < r → j < c → f i j = f' i j) : tabulate r c f = tabulate r c f' := by
  unfold tabulate
  apply List.map_congr_left
  intro i hi
  apply List.map_congr_left
  intro j hj
  exact h i j (List.mem_range.mp hi) (List.mem_range.mp hj)

theorem replicate_eq_tabulate {α : Type} (r c : Nat) (x : α) :
    List.replicate r (List.replicate c x) = tabulate r c (fun _ _ => x) := by
  unfold tabulate
  apply List.ext_getElem?
  intro i
  by_cases hi : i < r
  · simp only [List.getElem?_map, List.getElem?_range hi, Option.map_some']
    rw [List.getElem?_replicate, if_pos hi]
    congr 1
    apply List.ext_getElem?
    intro j
    by_cases hj : j < c
    · simp [List.getElem?_map, List.getElem?_range hj, List.getElem?_replicate, hj]
    · rw [List.getElem?_eq_none (by simp; omega), List.getElem?_eq_none (by simp; omega)]
  · rw [List.getElem?_eq_none (by simp; omega), List.getElem?_eq_none (by simp; omega)]

theorem readCell_tabulate {α : Type} (r c : Nat) (f : Nat → Nat → α) (i j : Nat)
    (hi : i < r) (hj : j < c) : readCell (tabulate r c f) i j = Except.ok (some (f i j)) := by
  simp [readCell, tabulate_getElem?, hi, List.getElem?_map, List.getElem?_range hj]

theorem readCell_tabulate_row {α : Type} (r c : Nat) (f : Nat → Nat → α) (i j : Nat)
    (hi : r ≤ i) : readCell (tabulate r c f) i j = Except.error Err.typeError := by
  simp [readCell, tabulate_getElem?, Nat.not_lt.mpr hi]

theorem readCell_tabulate_col {α : Type} (r c : Nat) (f : Nat → Nat → α) (i j : Nat)
    (hi : i < r) (hj : c ≤ j) : readCell (tabulate r c f) i j = Except.ok none := by
  simp [readCell, tabulate_getElem?, hi, List.getElem?_map]
  omega

theorem setCell_tabulate (r c : Nat) (f : Nat → Nat → Option ℚ) (i j : Nat) (v : Option ℚ)
    (hi : i < r) (hj : j < c) :
    setCell (tabulate r c f) i j v =
      Except.ok (tabulate r c (fun a b => if a = i ∧ b = j then v else f a b)) := by
  simp only [setCell, tabulate_getElem?, hi, if_true, List.length_map, List.length_range, hj,
    pure_eq_ok, Except.ok.injEq]
  unfold tabulate
  apply List.ext_getElem?
  intro a
  rw [List.getElem?_set]
  by_cases ha : a < r
  · by_cases hai : i = a
    · subst hai
      simp only [if_true, List.length_map, List.length_range, hi, List.getElem?_map,
        List.getElem?_range hi, Option.map_some', Option.some.injEq]
      apply List.ext_getElem?
      intro b
      rw [List.getElem?_set]
      by_cases hb : b < c
      · by_cases hbj : j = b
        · subst hbj
          simp [hj, List.getElem?_map, List.getElem?_range hj]
        · have hbj' : ¬ b = j := fun h => hbj h.symm
          simp [hbj, hbj', List.getElem?_map, List.getElem?_range hb]
      · have : ¬ j = b := by omega
        simp only [this, if_false]
        rw [List.getElem?_eq_none (by simp; omega), List.getElem?_eq_none (by simp; omega)]
    · have hai' : ¬ a = i := fun h => hai h.symm
      simp [hai, hai', List.getElem?_map, List.getElem?_range ha]
  · have : ¬ i = a := by omega
    simp only [this, if_false]
    rw [List.getElem?_eq_none (by simp; omega), List.getElem?_eq_none (by simp; omega)]

end MatrixAndSets

namespace MatrixAndSets

/-! ## The constructor -/

theorem JSVal.arr_elems_of_isArray (v : JSVal) (h : v.isArray = true) :
    JSVal.arr v.elems = v := by
  cases v <;> simp_all [JSVal.isArray, JSVal.elems]

theorem JSVal.num_of_isNumber (v : JSVal) (h : v.isNumber = true) :
    ∃ q, v = JSVal.num q := by
  cases v <;> simp_all [JSVal.isNumber]

theorem JSVal.map_num_filterMap (cells : List JSVal)
    (h : ∀ x ∈ cells, x.isNumber = true) :
    (cells.filterMap JSVal.toNum?).map JSVal.num = cells := by
  induction cells with
  | nil => rfl
  | cons x xs ih =>
    obtain ⟨q, rfl⟩ := JSVal.num_of_isNumber x (h x (List.mem_cons_self _ _))
    have := ih (fun y hy => h y (List.mem_cons_of_mem _ hy))
    simp [JSVal.toNum?, this]

theorem JSVal.ofGrid_stored (rows : List JSVal)
    (harr : ∀ row ∈ rows, row.isArray = true)
    (hnum : ∀ row ∈ rows, ∀ x ∈ row.elems, x.isNumber = true) :
    JSVal.ofGrid (rows.map (fun row => row.elems.filterMap JSVal.toNum?)) = JSVal.arr rows := by
  unfold JSVal.ofGrid
  congr 1
  rw [List.map_map]
  conv_rhs => rw [← List.map_id rows]
  apply List.map_congr_left
  intro row hrow
  simp only [Function.comp, id]
  rw [JSVal.map_num_filterMap _ (hnum row hrow)]
  exact JSVal.arr_elems_of_isArray row (harr row hrow)

/-- What the constructor returns, by cases on its four checks. -/
theorem new_cases (array : JSVal) :
    ((array.isArray = false ∨ array.elems = []) →
      Matrix.new array = Except.error (Err.error "Value must be a non-empty array")) ∧
    (array.isArray = true → array.elems ≠ [] →
      ((∃ row ∈ array.elems, row.isArray = false) →
        Matrix.new array = Except.error (Err.error "Array must be a 2D array")) ∧
      ((∀ row ∈ array.elems, row.isArray = true) →
        ((∃ r₁ ∈ array.elems, ∃ r₂ ∈ array.elems, r₁.elems.length ≠ r₂.elems.length) →
          Matrix.new array = Except.error (Err.error "All rows must have the same length")) ∧
        ((∀ r₁ ∈ array.elems, ∀ r₂ ∈ array.elems, r₁.elems.length = r₂.elems.length) →
          ((∃ row ∈ array.elems, ∃ x ∈ row.elems, x.isNumber = false) →
            Matrix.new array = Except.error (Err.error "All elements must be numbers")) ∧
          ((∀ row ∈ array.elems, ∀ x ∈ row.elems, x.isNumber = true) →
            Matrix.new array =
              Except.ok ⟨array.elems.map (fun row => row.elems.filterMap JSVal.toNum?)⟩)))) := by
  refine ⟨?_, ?_⟩
  · rintro (h | h)
    · simp [Matrix.new, h]
    · simp [Matrix.new, h]
  · intro harr hne
    have hlen : ¬ array.elems.length = 0 := by
      intro h
      exact hne (List.length_eq_zero.mp h)
    refine ⟨?_, ?_⟩
    · rintro ⟨row, hrow, hr⟩
      have : ¬ ∀ x ∈ array.elems, x.isArray = true := by
        intro hall
        rw [hall row hrow] at hr
        exact Bool.noConfusion hr
      simp [Matrix.new, harr, hlen, this]
    · intro hrows
      obtain ⟨row0, rest, hcons⟩ := List.exists_cons_of_ne_nil hne
      have hhead : array.elems.headD JSVal.undefined = row0 := by rw [hcons]; rfl
      have hrow0 : row0 ∈ array.elems := by rw [hcons]; exact List.mem_cons_self _ _
      have h2 : ¬ ∃ x ∈ array.elems, x.isArray = false := by
        rintro ⟨x, hx, hxa⟩
        rw [hrows x hx] at hxa
        exact Bool.noConfusion hxa
      refine ⟨?_, ?_⟩
      · rintro ⟨r₁, h₁, r₂, h₂, hne12⟩
        have : ∃ x ∈ array.elems, ¬ x.elems.length = row0.elems.length := by
          by_cases h : r₁.elems.length = row0.elems.length
          · exact ⟨r₂, h₂, fun h' => hne12 (h.trans h'.symm)⟩
          · exact ⟨r₁, h₁, h⟩
        simp only [Matrix.new, harr, hhead]
        simp [hlen, h2, this]
      · intro hsame
        have h3 : ¬ ∃ x ∈ array.elems, ¬ x.elems.length = row0.elems.length := by
          rintro ⟨x, hx, hxl⟩
          exact hxl (hsame x hx row0 hrow0)
        refine ⟨?_, ?_⟩
        · rintro ⟨row, hrow, x, hx, hxn⟩
          have : ∃ r ∈ array.elems, ∃ y ∈ r.elems, y.isNumber = false := ⟨row, hrow, x, hx, hxn⟩
          simp only [Matrix.new, harr, hhead]
          simp [hlen, h2, h3, this]
        · intro hnum
          have h4 : ¬ ∃ r ∈ array.elems, ∃ y ∈ r.elems, y.isNumber = false := by
            rintro ⟨r, hr, y, hy, hyn⟩
            rw [hnum r hr y hy] at hyn
            exact Bool.noConfusion hyn
          simp only [Matrix.new, harr, hhead]
          simp [hlen, h2, h3, h4]

end MatrixAndSets

namespace MatrixAndSets

/-! ## Loop schemes -/

/-- A loop whose state after `i` iterations is `F i`. -/
theorem forLoop_trace {σ : Type} (F : Nat → σ) (n : Nat)
    (body : Nat → σ → Except Err σ) (s : σ) (h0 : s = F 0)
    (hstep : ∀ i, i < n → body i (F i) = Except.ok (F (i + 1))) :
    forLoop n body s = Except.ok (F n) := by
  rw [h0]
  exact forLoop_eq F n body hstep

/-- A loop that pushes `g i` for the indices `i` it keeps and skips the others
(`continue`). -/
theorem forLoop_push {α : Type} (n : Nat) (keep : Nat → Bool) (g : Nat → α)
    (body : Nat → List α → Except Err (List α)) (init : List α)
    (hbody : ∀ i acc, i < n →
      body i acc = Except.ok (if keep i = true then acc ++ [g i] else acc)) :
    forLoop n body init = Except.ok (init ++ ((List.range n).filter keep).map g) := by
  apply forLoop_trace (fun k => init ++ ((List.range k).filter keep).map g)
  · simp
  · intro i hi
    rw [hbody _ _ hi, List.range_succ, List.filter_append]
    by_cases hk : keep i = true
    · simp [hk]
    · simp [hk]

/-- A loop that pushes `g i` for every index. -/
theorem forLoop_pushAll {α : Type} (n : Nat) (g : Nat → α)
    (body : Nat → List α → Except Err (List α)) (init : List α)
    (hbody : ∀ i acc, i < n → body i acc = Except.ok (acc ++ [g i])) :
    forLoop n body init = Except.ok (init ++ (List.range n).map g) := by
  have := forLoop_push n (fun _ => true) g body init (by simpa using hbody)
  simpa using this

/-- Nested loops that assign cell `[i][j]` of a preallocated `R`×`C` array at
iteration `(i, j)`. -/
theorem fill_rowMajor (R C : Nat)
    (body : Nat → Nat → List (List (Option ℚ)) → Except Err (List (List (Option ℚ))))
    (init w : Nat → Nat → Option ℚ)
    (hbody : ∀ i j f, i < R → j < C → f i j = init i j →
      body i j (tabulate R C f) =
        Except.ok (tabulate R C (fun a b => if a = i ∧ b = j then w i j else f a b))) :
    forLoop R (fun i g => forLoop C (fun j g => body i j g) g) (tabulate R C init) =
      Except.ok (tabulate R C w) := by
  have key := forLoop_trace
    (fun i => tabulate R C (fun a b => if a < i then w a b else init a b)) R
    (fun i g => forLoop C (fun j g => body i j g) g) (tabulate R C init) (by simp) (by
      intro i hi
      have inner := forLoop_trace
        (fun j => tabulate R C (fun a b => if a < i ∨ (a = i ∧ b < j) then w a b else init a b))
        C (fun j g => body i j g)
        (tabulate R C (fun a b => if a < i then w a b else init a b)) (by simp) (by
          intro j hj
          show body i j _ = _
          rw [hbody i j _ hi hj (by simp)]
          congr 1
          apply tabulate_congr
          intro a b _ _
          by_cases h1 : a = i ∧ b = j
          · obtain ⟨rfl, rfl⟩ := h1
            simp
          · rw [if_neg h1]
            by_cases h2 : a < i ∨ (a = i ∧ b < j)
            · rw [if_pos h2, if_pos]
              rcases h2 with h2 | ⟨h2, h3⟩
              · exact Or.inl h2
              · exact Or.inr ⟨h2, by omega⟩
            · rw [if_neg h2, if_neg]
              rintro (h3 | ⟨h3, h4⟩)
              · exact h2 (Or.inl h3)
              · apply h2
                right
                refine ⟨h3, ?_⟩
                have : b ≠ j := fun hb => h1 ⟨h3, hb⟩
                omega)
      show forLoop C (fun j g => body i j g) _ = _
      rw [inner]
      congr 1
      apply tabulate_congr
      intro a b _ hb
      by_cases h1 : a < i
      · have : a < i + 1 := by omega
        simp [h1, this]
      · by_cases h2 : a = i
        · subst h2
          simp [hb]
        · have h3 : ¬ a < i + 1 := by omega
          simp [h1, h2, h3])
  rw [key]
  congr 1
  apply tabulate_congr
  intro a b ha _
  simp [ha]

/-- Nested loops that assign cell `[j][i]` of a preallocated `C`×`R` array at
iteration `(i, j)`. -/
theorem fill_transposed (R C : Nat)
    (body : Nat → Nat → List (List (Option ℚ)) → Except Err (List (List (Option ℚ))))
    (init w : Nat → Nat → Option ℚ)
    (hbody : ∀ i j f, i < R → j < C →
      body i j (tabulate C R f) =
        Except.ok (tabulate C R (fun a b => if a = j ∧ b = i then w i j else f a b))) :
    forLoop R (fun i g => forLoop C (fun j g => body i j g) g) (tabulate C R init) =
      Except.ok (tabulate C R (fun a b => w b a)) := by
  have key := forLoop_trace
    (fun i => tabulate C R (fun a b => if b < i then w b a else init a b)) R
    (fun i g => forLoop C (fun j g => body i j g) g) (tabulate C R init) (by simp) (by
      intro i hi
      have inner := forLoop_trace
        (fun j => tabulate C R (fun a b => if b < i ∨ (b = i ∧ a < j) then w b a else init a b))
        C (fun j g => body i j g)
        (tabulate C R (fun a b => if b < i then w b a else init a b)) (by simp) (by
          intro j hj
          show body i j _ = _
          rw [hbody i j _ hi hj]
          congr 1
          apply tabulate_congr
          intro a b _ _
          by_cases h1 : a = j ∧ b = i
          · obtain ⟨rfl, rfl⟩ := h1
            simp
          · rw [if_neg h1]
            by_cases h2 : b < i ∨ (b = i ∧ a < j)
            · rw [if_pos h2, if_pos]
              rcases h2 with h2 | ⟨h2, h3⟩
              · exact Or.inl h2
              · exact Or.inr ⟨h2, by omega⟩
            · rw [if_neg h2, if_neg]
              rintro (h3 | ⟨h3, h4⟩)
              · exact h2 (Or.inl h3)
              · apply h2
                right
                refine ⟨h3, ?_⟩
                have : a ≠ j := fun ha => h1 ⟨ha, h3⟩
                omega)
      show forLoop C (fun j g => body i j g) _ = _
      rw [inner]
      congr 1
      apply tabulate_congr
      intro a b ha _
      by_cases h1 : b < i
      · have : b < i + 1 := by omega
        simp [h1, this]
      · by_cases h2 : b = i
        · subst h2
          simp [ha]
        · have h3 : ¬ b < i + 1 := by omega
          simp [h1, h2, h3])
  rw [key]
  congr 1
  apply tabulate_congr
  intro a b _ hb
  simp [hb]

end MatrixAndSets

namespace MatrixAndSets

/-- A matrix returned by the constructor is its argument, has a first row, and all
its rows have the length of the first. -/
theorem new_ok (array : JSVal) (m : Matrix) (h : Matrix.new array = Except.ok m) :
    JSVal.ofGrid m.arr = array ∧ 1 ≤ m.arr.length ∧
      ∃ c, Shape m.arr m.arr.length c ∧ m.getDimensions = Except.ok (m.arr.length, c) := by
  have hc := new_cases array
  by_cases h1 : array.isArray = false ∨ array.elems = []
  · rw [hc.1 h1] at h
    exact Except.noConfusion h
  · have harr : array.isArray = true := by
      cases hb : array.isArray
      · exact absurd (Or.inl hb) h1
      · rfl
    have hne : array.elems ≠ [] := fun hn => h1 (Or.inr hn)
    have hc2 := hc.2 harr hne
    by_cases h2 : ∃ row ∈ array.elems, row.isArray = false
    · rw [hc2.1 h2] at h
      exact Except.noConfusion h
    · have hrows : ∀ row ∈ array.elems, row.isArray = true := by
        intro row hrow
        cases hb : row.isArray
        · exact absurd ⟨row, hrow, hb⟩ h2
        · rfl
      have hc3 := hc2.2 hrows
      by_cases h3 : ∃ r₁ ∈ array.elems, ∃ r₂ ∈ array.elems, r₁.elems.length ≠ r₂.elems.length
      · rw [hc3.1 h3] at h
        exact Except.noConfusion h
      · have hsame : ∀ r₁ ∈ array.elems, ∀ r₂ ∈ array.elems,
            r₁.elems.length = r₂.elems.length := by
          intro r₁ h₁ r₂ h₂
          by_contra hn
          exact h3 ⟨r₁, h₁, r₂, h₂, hn⟩
        have hc4 := hc3.2 hsame
        by_cases h4 : ∃ row ∈ array.elems, ∃ x ∈ row.elems, x.isNumber = false
        · rw [hc4.1 h4] at h
          exact Except.noConfusion h
        · have hnum : ∀ row ∈ array.elems, ∀ x ∈ row.elems, x.isNumber = true := by
            intro row hrow x hx
            cases hb : x.isNumber
            · exact absurd ⟨row, hrow, x, hx, hb⟩ h4
            · rfl
          rw [hc4.2 hnum] at h
          have hm := Except.ok.inj h
          subst hm
          obtain ⟨row0, rest, hcons⟩ := List.exists_cons_of_ne_nil hne
          have hrow0 : row0 ∈ array.elems := by rw [hcons]; exact List.mem_cons_self _ _
          have hflen : ∀ row ∈ array.elems,
              (row.elems.filterMap JSVal.toNum?).length = row0.elems.length := by
            intro row hrow
            have := congrArg List.length (JSVal.map_num_filterMap row.elems (hnum row hrow))
            rw [List.length_map] at this
            rw [this]
            exact hsame row hrow row0 hrow0
          refine ⟨?_, ?_, row0.elems.length, ⟨rfl, ?_⟩, ?_⟩
          · show JSVal.ofGrid (array.elems.map _) = array
            rw [JSVal.ofGrid_stored array.elems hrows hnum]
            exact JSVal.arr_elems_of_isArray array harr
          · show 1 ≤ (array.elems.map _).length
            rw [List.length_map, hcons]
            simp
          · intro row hrow
            simp only [List.mem_map] at hrow
            obtain ⟨x, hx, rfl⟩ := hrow
            exact hflen x hx
          · simp only [Matrix.getDimensions, hcons, List.map_cons, List.getElem?_cons_zero,
              pure_eq_ok, List.length_cons, List.length_map]
            rw [hflen row0 hrow0]

theorem filterMap_some_fun {α β : Type} (f : α → β) (l : List α) :
    l.filterMap (fun x => some (f x)) = l.map f := by
  induction l with
  | nil => rfl
  | cons x xs ih => simp [List.filterMap_cons, ih]

/-- The constructor accepts a non-empty working array whose rows have one length and
hold numbers only, and stores its numbers. -/
theorem new_ofRows_tabulate (r c : Nat) (h : Nat → Nat → ℚ) (hr : 1 ≤ r) :
    Matrix.new (JSVal.ofRows (tabulate r c (fun i j => some (h i j)))) =
      Except.ok ⟨tabulate r c h⟩ := by
  have hc := new_cases (JSVal.ofRows (tabulate r c (fun i j => some (h i j))))
  have helems : (JSVal.ofRows (tabulate r c (fun i j => some (h i j)))).elems =
      (List.range r).map (fun i => JSVal.arr ((List.range c).map (fun j => JSVal.num (h i j)))) := by
    simp [JSVal.ofRows, JSVal.elems, tabulate, List.map_map, Function.comp, JSVal.ofCell]
  rw [helems] at hc
  have := hc.2 rfl (by
      intro hn
      have := congrArg List.length hn
      simp at this
      omega)
  have := this.2 (by
      intro row hrow
      simp only [List.mem_map, List.mem_range] at hrow
      obtain ⟨i, _, rfl⟩ := hrow
      rfl)
  have := this.2 (by
      intro r₁ h₁ r₂ h₂
      simp only [List.mem_map, List.mem_range] at h₁ h₂
      obtain ⟨i, _, rfl⟩ := h₁
      obtain ⟨j, _, rfl⟩ := h₂
      simp [JSVal.elems])
  have := this.2 (by
      intro row hrow x hx
      simp only [List.mem_map, List.mem_range] at hrow
      obtain ⟨i, _, rfl⟩ := hrow
      simp only [JSVal.elems, List.mem_map, List.mem_range] at hx
      obtain ⟨j, _, rfl⟩ := hx
      rfl)
  rw [this]
  congr 2
  simp only [tabulate, List.map_map]
  apply List.map_congr_left
  intro i _
  simp only [Function.comp, JSVal.elems, List.filterMap_map]
  have : (JSVal.toNum? ∘ fun j => JSVal.num (h i j)) = fun j => some (h i j) := by
    funext j
    rfl
  rw [this]
  exact filterMap_some_fun (fun j => h i j) (List.range c)

theorem new_ofGrid_tabulate (r c : Nat) (h : Nat → Nat → ℚ) (hr : 1 ≤ r) :
    Matrix.new (JSVal.ofGrid (tabulate r c h)) = Except.ok ⟨tabulate r c h⟩ := by
  have : JSVal.ofGrid (tabulate r c h) =
      JSVal.ofRows (tabulate r c (fun i j => some (h i j))) := by
    simp [JSVal.ofGrid, JSVal.ofRows, tabulate, List.map_map, Function.comp, JSVal.ofCell]
  rw [this, new_ofRows_tabulate r c h hr]

theorem new_ofRows_nil : Matrix.new (JSVal.ofRows []) =
    Except.error (Err.error "Value must be a non-empty array") := by
  simp [Matrix.new, JSVal.ofRows, JSVal.elems, JSVal.isArray]

/-! ## Reads and dimensions of a well-shaped matrix -/

theorem eq_tabulate_of_hasShape (m : Matrix) (r c : Nat) (h : m.HasShape r c) :
    m = ⟨tabulate r c m.entry⟩ := by
  cases m with
  | mk arr =>
    congr 1
    exact shape_eq_tabulate 0 arr r c h

theorem hasShape_tabulate (r c : Nat) (a : Nat → Nat → ℚ) :
    (⟨tabulate r c a⟩ : Matrix).HasShape r c :=
  tabulate_shape r c a

theorem getDimensions_tabulate (r c : Nat) (a : Nat → Nat → ℚ) (hr : 1 ≤ r) :
    (⟨tabulate r c a⟩ : Matrix).getDimensions = Except.ok (r, c) := by
  have h0 : 0 < r := hr
  simp only [Matrix.getDimensions, tabulate_getElem?, h0, if_true, pure_eq_ok, tabulate_length,
    List.length_map, List.length_range]

theorem isSquare_tabulate (r c : Nat) (a : Nat → Nat → ℚ) (hr : 1 ≤ r) :
    (⟨tabulate r c a⟩ : Matrix).isSquare = Except.ok (r == c) := by
  simp [Matrix.isSquare, getDimensions_tabulate r c a hr]

theorem cell_tabulate (r c : Nat) (a : Nat → Nat → ℚ) (i j : Nat) (hi : i < r) (hj : j < c) :
    (⟨tabulate r c a⟩ : Matrix).cell i j = Except.ok (some (a i j)) :=
  readCell_tabulate r c a i j hi hj

theorem cell_of_hasShape (m : Matrix) (r c : Nat) (h : m.HasShape r c) (i j : Nat)
    (hi : i < r) (hj : j < c) : m.cell i j = Except.ok (some (m.entry i j)) := by
  have := eq_tabulate_of_hasShape m r c h
  rw [this, cell_tabulate r c _ i j hi hj, ← this]

end MatrixAndSets

namespace MatrixAndSets

/-! ## The methods on a well-shaped matrix -/

theorem getTranspose_tabulate (r c : Nat) (a : Nat → Nat → ℚ) (hr : 1 ≤ r) (hc : 1 ≤ c) :
    (⟨tabulate r c a⟩ : Matrix).getTranspose =
      Except.ok ⟨tabulate c r (fun i j => a j i)⟩ := by
  unfold Matrix.getTranspose
  rw [getDimensions_tabulate r c a hr]
  simp only [ok_bind, replicate_eq_tabulate]
  rw [fill_transposed r c
    (fun i j newArr => do
      let x ← (⟨tabulate r c a⟩ : Matrix).cell i j
      setCell newArr j i x)
    (fun _ _ => some 0) (fun i j => some (a i j))]
  · simp only [ok_bind]
    exact new_ofRows_tabulate c r (fun i j => a j i) hc
  · intro i j f hi hj
    simp only [cell_tabulate r c a i j hi hj, ok_bind]
    exact setCell_tabulate c r f j i _ hj hi

theorem getTranspose_noColumns (r : Nat) (a : Nat → Nat → ℚ) (hr : 1 ≤ r) :
    (⟨tabulate r 0 a⟩ : Matrix).getTranspose =
      Except.error (Err.error "Value must be a non-empty array") := by
  unfold Matrix.getTranspose
  rw [getDimensions_tabulate r 0 a hr]
  simp only [ok_bind, replicate_eq_tabulate]
  rw [fill_transposed r 0
    (fun i j newArr => do
      let x ← (⟨tabulate r 0 a⟩ : Matrix).cell i j
      setCell newArr j i x)
    (fun _ _ => some 0) (fun i j => some (a i j))]
  · simp only [ok_bind]
    exact new_ofRows_nil
  · intro i j f _ hj
    exact absurd hj (Nat.not_lt_zero j)

end MatrixAndSets

namespace MatrixAndSets

theorem isConformalTo_tabulate (r c r' c' : Nat) (a b : Nat → Nat → ℚ) (hr : 1 ≤ r)
    (hr' : 1 ≤ r') :
    (⟨tabulate r c a⟩ : Matrix).isConformalTo (Operand.matrix ⟨tabulate r' c' b⟩) =
      Except.ok (decide (r = r' ∧ c = c')) := by
  simp only [Matrix.isConformalTo, getDimensions_tabulate r c a hr,
    getDimensions_tabulate r' c' b hr', ok_bind]
  by_cases h : r = r' ∧ c = c'
  · simp [h]
  · simp [h]

theorem cellwise_tabulate (op : ℚ → ℚ → ℚ) (r c : Nat) (a b : Nat → Nat → ℚ) (hr : 1 ≤ r) :
    Matrix.cellwise op ⟨tabulate r c a⟩ (Operand.matrix ⟨tabulate r c b⟩) =
      Except.ok ⟨tabulate r c (fun i j => op (a i j) (b i j))⟩ := by
  simp only [Matrix.cellwise, isConformalTo_tabulate r c r c a b hr hr, ok_bind,
    getDimensions_tabulate r c a hr]
  simp only [and_self, decide_True, Bool.not_true, Bool.false_eq_true, if_false]
  rw [forLoop_pushAll r (fun i => (List.range c).map (fun j => some (op (a i j) (b i j))))]
  · simp only [ok_bind, List.nil_append]
    exact new_ofRows_tabulate r c (fun i j => op (a i j) (b i j)) hr
  · intro i acc hi
    rw [forLoop_pushAll c (fun j => some (op (a i j) (b i j)))]
    · simp
    · intro j acc' hj
      simp [cell_tabulate r c a i j hi hj, cell_tabulate r c b i j hi hj, toNumber]

theorem cellwise_notConformal (op : ℚ → ℚ → ℚ) (r c r' c' : Nat) (a b : Nat → Nat → ℚ)
    (hr : 1 ≤ r) (hr' : 1 ≤ r') (h : ¬ (r = r' ∧ c = c')) :
    Matrix.cellwise op ⟨tabulate r c a⟩ (Operand.matrix ⟨tabulate r' c' b⟩) =
      Except.error (Err.error "Matrices must be conformal") := by
  simp only [Matrix.cellwise, isConformalTo_tabulate r c r' c' a b hr hr', ok_bind]
  simp [h]

theorem scalarMultiplyBy_tabulate (r c : Nat) (a : Nat → Nat → ℚ) (hr : 1 ≤ r)
    (number : JSVal) (k : ℚ) (hk : number.toNumber = Except.ok (some k)) :
    (⟨tabulate r c a⟩ : Matrix).scalarMultiplyBy number =
      Except.ok ⟨tabulate r c (fun i j => a i j * k)⟩ := by
  simp only [Matrix.scalarMultiplyBy, hk, ok_bind, getDimensions_tabulate r c a hr]
  rw [forLoop_pushAll r (fun i => (List.range c).map (fun j => some (a i j * k)))]
  · simp only [ok_bind, List.nil_append]
    exact new_ofRows_tabulate r c (fun i j => a i j * k) hr
  · intro i acc hi
    rw [forLoop_pushAll c (fun j => some (a i j * k))]
    · simp
    · intro j acc' hj
      simp [cell_tabulate r c a i j hi hj, toNumber]

end MatrixAndSets

namespace MatrixAndSets

theorem filter_ne_range (n t : Nat) :
    (List.range n).filter (fun i => decide (¬ i = t)) = (List.range (minorSize n t)).map (skip t) := by
  induction n with
  | zero => simp [minorSize]
  | succ n ih =>
    rw [List.range_succ, List.filter_append, ih]
    by_cases h1 : t < n
    · have h2 : t < n + 1 := by omega
      have h3 : ¬ n = t := by omega
      have h4 : n - 1 + 1 = n := by omega
      simp only [minorSize, h1, h2, if_true, Nat.add_sub_cancel]
      conv_rhs => rw [← h4, List.range_succ, List.map_append]
      have h5 : skip t (n - 1) = n := by
        unfold skip
        rw [if_neg (by omega)]
        exact h4
      simp [h3, h5]
    · by_cases h2 : t = n
      · subst h2
        simp [minorSize]
      · have h3 : ¬ t < n + 1 := by omega
        have h4 : ¬ n = t := fun h => h2 h.symm
        have h5 : skip t n = n := by
          unfold skip
          rw [if_pos (by omega)]
        simp only [minorSize, h1, h3, if_false]
        rw [List.range_succ, List.map_append]
        simp [h4, h5]

theorem one_le_minorSize (n t : Nat) (hn : 2 ≤ n) : 1 ≤ minorSize n t := by
  unfold minorSize
  split <;> omega

theorem getMinor_tabulate (n : Nat) (a : Nat → Nat → ℚ) (hn : 2 ≤ n) (tr tc : Nat) :
    (⟨tabulate n n a⟩ : Matrix).getMinor tr tc =
      Except.ok ⟨tabulate (minorSize n tr) (minorSize n tc)
        (fun i j => a (skip tr i) (skip tc j))⟩ := by
  have hn1 : 1 ≤ n := by omega
  have hne : ¬ n = 1 := by omega
  simp only [Matrix.getMinor, isSquare_tabulate n n a hn1, ok_bind,
    getDimensions_tabulate n n a hn1, beq_self_eq_true, Bool.not_true, Bool.false_eq_true,
    if_false, hne]
  rw [forLoop_push n (fun i => decide (¬ i = tr))
    (fun i => ((List.range n).filter (fun j => decide (¬ j = tc))).map (fun j => some (a i j)))]
  · simp only [ok_bind, List.nil_append, filter_ne_range, List.map_map]
    exact new_ofRows_tabulate (minorSize n tr) (minorSize n tc)
      (fun i j => a (skip tr i) (skip tc j)) (one_le_minorSize n tr hn)
  · intro i acc hi
    by_cases h : i = tr
    · simp [h]
    · simp only [h, if_false, not_false_eq_true, decide_True, if_true]
      rw [forLoop_push n (fun j => decide (¬ j = tc)) (fun j => some (a i j))]
      · simp
      · intro j acc' hj
        by_cases h' : j = tc
        · simp [h']
        · simp [h', cell_tabulate n n a i j hi hj]

theorem getMinor_one (a : Nat → Nat → ℚ) (tr tc : Nat) :
    (⟨tabulate 1 1 a⟩ : Matrix).getMinor tr tc = Except.ok ⟨tabulate 1 1 a⟩ := by
  simp only [Matrix.getMinor, isSquare_tabulate 1 1 a (le_refl 1), ok_bind,
    getDimensions_tabulate 1 1 a (le_refl 1), beq_self_eq_true, Bool.not_true,
    Bool.false_eq_true, if_false, if_true]
  exact new_ofGrid_tabulate 1 1 a (le_refl 1)

end MatrixAndSets

namespace MatrixAndSets

/-! ## Determinant and cofactors -/

theorem minorSize_lt (n t : Nat) (h : t < n) : minorSize n t = n - 1 := by
  simp [minorSize, h]

theorem squareOf_submatrix (m : Nat) (a : Nat → Nat → ℚ) (r c : Fin (m + 1)) :
    (squareOf (m + 1) a).submatrix r.succAbove c.succAbove =
      squareOf m (fun x y => a (skip r x) (skip c y)) := by
  ext x y
  have hs : ∀ (t : Fin (m + 1)) (z : Fin m), ((t.succAbove z : Fin (m + 1)) : Nat) = skip t z := by
    intro t z
    unfold skip Fin.succAbove
    by_cases h : z.castSucc < t
    · have h' : (z : Nat) < t := h
      simp [h, h']
    · have h' : ¬ (z : Nat) < t := h
      simp [h, h']
  simp only [Matrix.submatrix_apply, squareOf, hs]

theorem getCofactorWith_tabulate (det : Matrix → Except Err ℚ) (n : Nat) (a : Nat → Nat → ℚ)
    (hn : 2 ≤ n) (tr tc : Nat) (d : ℚ)
    (hd : det ⟨tabulate (minorSize n tr) (minorSize n tc)
      (fun i j => a (skip tr i) (skip tc j))⟩ = Except.ok d) :
    Matrix.getCofactorWith det ⟨tabulate n n a⟩ tr tc = Except.ok ((-1) ^ (tr + tc) * d) := by
  have hn1 : 1 ≤ n := by omega
  simp [Matrix.getCofactorWith, isSquare_tabulate n n a hn1, getMinor_tabulate n a hn tr tc, hd]

theorem getDeterminantFuel_tabulate (fuel : Nat) :
    ∀ (n : Nat) (a : Nat → Nat → ℚ), 1 ≤ n → n ≤ fuel →
      Matrix.getDeterminantFuel fuel ⟨tabulate n n a⟩ = Except.ok (squareOf n a).det := by
  induction fuel with
  | zero => intro n a h1 h2; omega
  | succ fuel ih =>
    intro n a h1 h2
    simp only [Matrix.getDeterminantFuel, isSquare_tabulate n n a h1, ok_bind,
      getDimensions_tabulate n n a h1, beq_self_eq_true, Bool.not_true, Bool.false_eq_true,
      if_false]
    by_cases hn1 : n = 1
    · subst hn1
      simp only [if_true, cell_tabulate 1 1 a 0 0 Nat.zero_lt_one Nat.zero_lt_one, ok_bind,
        toNumber, pure_eq_ok, Except.ok.injEq]
      rw [Matrix.det_unique]
      rfl
    · by_cases hn2 : n = 2
      · subst hn2
        simp only [if_true, if_false, hn1, ok_bind, toNumber, pure_eq_ok,
          cell_tabulate 2 2 a 0 0 (by omega) (by omega),
          cell_tabulate 2 2 a 1 1 (by omega) (by omega),
          cell_tabulate 2 2 a 0 1 (by omega) (by omega),
          cell_tabulate 2 2 a 1 0 (by omega) (by omega), Except.ok.injEq]
        rw [Matrix.det_fin_two]
        rfl
      · simp only [hn1, hn2, if_false]
        obtain ⟨m, rfl⟩ : ∃ m, n = m + 1 := ⟨n - 1, by omega⟩
        have hm : 2 ≤ m := by omega
        rw [forLoop_trace (fun k => ∑ i in Finset.range k,
          a 0 i * ((-1) ^ (0 + i) * (squareOf m (fun x y => a (skip 0 x) (skip i y))).det))]
        · rw [Matrix.det_succ_row_zero, ← Fin.sum_univ_eq_sum_range
            (fun i => a 0 i * ((-1) ^ (0 + i) *
              (squareOf m (fun x y => a (skip 0 x) (skip i y))).det)) (m + 1)]
          congr 1
          apply Finset.sum_congr rfl
          intro j _
          have := squareOf_submatrix m a 0 j
          rw [Fin.succAbove_zero] at this
          rw [this]
          simp only [squareOf, Fin.val_zero, zero_add]
          ring
        · simp
        · intro i hi
          have hms0 : minorSize (m + 1) 0 = m := by rw [minorSize_lt _ _ (by omega)]; rfl
          have hmsi : minorSize (m + 1) i = m := by rw [minorSize_lt _ _ hi]; rfl
          have hd : Matrix.getDeterminantFuel fuel
              ⟨tabulate (minorSize (m + 1) 0) (minorSize (m + 1) i)
                (fun x y => a (skip 0 x) (skip i y))⟩ =
              Except.ok (squareOf m (fun x y => a (skip 0 x) (skip i y))).det := by
            rw [hms0, hmsi]
            exact ih m _ (by omega) (by omega)
          simp only [cell_tabulate (m + 1) (m + 1) a 0 i (by omega) hi, ok_bind,
            getCofactorWith_tabulate _ (m + 1) a (by omega) 0 i _ hd, toNumber, pure_eq_ok,
            Finset.sum_range_succ]

theorem getDeterminant_tabulate (n : Nat) (a : Nat → Nat → ℚ) (hn : 1 ≤ n) :
    (⟨tabulate n n a⟩ : Matrix).getDeterminant = Except.ok (squareOf n a).det := by
  unfold Matrix.getDeterminant
  exact getDeterminantFuel_tabulate _ n a hn (by rw [tabulate_length]; omega)

theorem getCofactor_tabulate (n : Nat) (a : Nat → Nat → ℚ) (hn : 2 ≤ n) (tr tc : Nat)
    (hr : tr < n) (hc : tc < n) :
    (⟨tabulate n n a⟩ : Matrix).getCofactor tr tc =
      Except.ok (cofactorOf n a tr tc) := by
  unfold Matrix.getCofactor cofactorOf
  apply getCofactorWith_tabulate _ n a hn
  rw [minorSize_lt n tr hr, minorSize_lt n tc hc]
  exact getDeterminant_tabulate (n - 1) _ (by omega)

end MatrixAndSets

namespace MatrixAndSets

/-! ## Inverse, adjoint and product -/

theorem getInverse_singular (n : Nat) (a : Nat → Nat → ℚ) (hn : 1 ≤ n)
    (hd : (squareOf n a).det = 0) :
    (⟨tabulate n n a⟩ : Matrix).getInverse = Except.error (Err.error "Matrix is singular") := by
  simp [Matrix.getInverse, isSquare_tabulate n n a hn, getDeterminant_tabulate n a hn, hd]

theorem getInverse_notSquare (r c : Nat) (a : Nat → Nat → ℚ) (hr : 1 ≤ r) (h : r ≠ c) :
    (⟨tabulate r c a⟩ : Matrix).getInverse = Except.error (Err.error "Matrix must be square") := by
  simp [Matrix.getInverse, isSquare_tabulate r c a hr, h]

theorem singleton_eq_tabulate {α : Type} (x : α) : [[x]] = tabulate 1 1 (fun _ _ => x) := rfl

theorem getInverse_one (a : Nat → Nat → ℚ) (hd : (squareOf 1 a).det ≠ 0) :
    (⟨tabulate 1 1 a⟩ : Matrix).getInverse = Except.ok ⟨[[1 / a 0 0]]⟩ := by
  simp only [Matrix.getInverse, isSquare_tabulate 1 1 a (le_refl 1), ok_bind,
    getDeterminant_tabulate 1 a (le_refl 1), beq_self_eq_true, Bool.not_true,
    Bool.false_eq_true, if_false, hd, getDimensions_tabulate 1 1 a (le_refl 1), if_true,
    cell_tabulate 1 1 a 0 0 Nat.zero_lt_one Nat.zero_lt_one, toNumber, pure_eq_ok]
  rw [singleton_eq_tabulate (some (1 / a 0 0)), singleton_eq_tabulate (1 / a 0 0)]
  exact new_ofRows_tabulate 1 1 (fun _ _ => 1 / a 0 0) (le_refl 1)

theorem getInverse_tabulate (n : Nat) (a : Nat → Nat → ℚ) (hn : 2 ≤ n)
    (hd : (squareOf n a).det ≠ 0) :
    (⟨tabulate n n a⟩ : Matrix).getInverse =
      Except.ok ⟨tabulate n n (fun i j => cofactorOf n a j i / (squareOf n a).det)⟩ := by
  have hn1 : 1 ≤ n := by omega
  have hne : ¬ n = 1 := by omega
  simp only [Matrix.getInverse, isSquare_tabulate n n a hn1, ok_bind,
    getDeterminant_tabulate n a hn1, beq_self_eq_true, Bool.not_true,
    Bool.false_eq_true, if_false, hd, getDimensions_tabulate n n a hn1, hne,
    replicate_eq_tabulate]
  rw [fill_rowMajor n n
    (fun i j inverse => do
      let c ← (⟨tabulate n n a⟩ : Matrix).getCofactor j i
      setCell inverse i j (some (c / (squareOf n a).det)))
    (fun _ _ => some 0) (fun i j => some (cofactorOf n a j i / (squareOf n a).det))]
  · simp only [ok_bind]
    exact new_ofRows_tabulate n n _ hn1
  · intro i j f hi hj _
    simp only [getCofactor_tabulate n a hn j i hj hi, ok_bind]
    exact setCell_tabulate n n f i j _ hi hj

theorem getAdjoint_one (a : Nat → Nat → ℚ) :
    (⟨tabulate 1 1 a⟩ : Matrix).getAdjoint = Except.ok ⟨[[1]]⟩ := by
  simp only [Matrix.getAdjoint, isSquare_tabulate 1 1 a (le_refl 1), ok_bind,
    beq_self_eq_true, Bool.not_true, Bool.false_eq_true, if_false,
    getDimensions_tabulate 1 1 a (le_refl 1), if_true]
  rw [singleton_eq_tabulate (some (1 : ℚ)), singleton_eq_tabulate (1 : ℚ)]
  exact new_ofRows_tabulate 1 1 (fun _ _ => 1) (le_refl 1)

theorem getAdjoint_tabulate (n : Nat) (a : Nat → Nat → ℚ) (hn : 2 ≤ n) :
    (⟨tabulate n n a⟩ : Matrix).getAdjoint =
      Except.ok ⟨tabulate n n (fun i j => cofactorOf n a j i)⟩ := by
  have hn1 : 1 ≤ n := by omega
  have hne : ¬ n = 1 := by omega
  simp only [Matrix.getAdjoint, isSquare_tabulate n n a hn1, ok_bind,
    beq_self_eq_true, Bool.not_true,
    Bool.false_eq_true, if_false, getDimensions_tabulate n n a hn1, hne,
    replicate_eq_tabulate]
  rw [fill_rowMajor n n
    (fun i j adjoint => do
      let c ← (⟨tabulate n n a⟩ : Matrix).getCofactor j i
      setCell adjoint i j (some c))
    (fun _ _ => some 0) (fun i j => some (cofactorOf n a j i))]
  · simp only [ok_bind]
    exact new_ofRows_tabulate n n _ hn1
  · intro i j f hi hj _
    simp only [getCofactor_tabulate n a hn j i hj hi, ok_bind]
    exact setCell_tabulate n n f i j _ hi hj

theorem getAdjoint_notSquare (r c : Nat) (a : Nat → Nat → ℚ) (hr : 1 ≤ r) (h : r ≠ c) :
    (⟨tabulate r c a⟩ : Matrix).getAdjoint = Except.error (Err.error "Matrix must be square") := by
  simp [Matrix.getAdjoint, isSquare_tabulate r c a hr, h]

theorem getMinor_notSquare (r c : Nat) (a : Nat → Nat → ℚ) (hr : 1 ≤ r) (h : r ≠ c)
    (tr tc : Nat) :
    (⟨tabulate r c a⟩ : Matrix).getMinor tr tc =
      Except.error (Err.error "Matrix must be square") := by
  simp [Matrix.getMinor, isSquare_tabulate r c a hr, h]

/-- The accumulation `newArr[i][j] += this.arr[i][k] * matrix.arr[k][j]` over `k`. -/
theorem accumulate_tabulate (r c k : Nat) (a b : Nat → Nat → ℚ) (i j : Nat)
    (f : Nat → Nat → Option ℚ) (hi : i < r) (hj : j < k) (hf : f i j = some 0) :
    forLoop c (fun t newArr => do
        let cur ← readCell newArr i j
        let x ← (⟨tabulate r c a⟩ : Matrix).cell i t
        let y ← (⟨tabulate c k b⟩ : Matrix).cell t j
        setCell newArr i j
          (some ((← toNumber cur.join) + (← toNumber x) * (← toNumber y)))) (tabulate r k f) =
      Except.ok (tabulate r k (fun p q =>
        if p = i ∧ q = j then some (∑ t in Finset.range c, a i t * b t j) else f p q)) := by
  apply forLoop_trace (fun n => tabulate r k (fun p q =>
        if p = i ∧ q = j then some (∑ t in Finset.range n, a i t * b t j) else f p q))
  · apply tabulate_congr
    intro p q _ _
    by_cases h : p = i ∧ q = j
    · obtain ⟨rfl, rfl⟩ := h
      simp [hf]
    · simp [h]
  · intro t ht
    simp only [readCell_tabulate r k _ i j hi hj, ok_bind, cell_tabulate r c a i t hi ht,
      cell_tabulate c k b t j ht hj, and_self, if_true, Option.join, Option.bind, toNumber,
      pure_eq_ok, id]
    rw [setCell_tabulate r k _ i j _ hi hj]
    congr 1
    apply tabulate_congr
    intro p q _ _
    by_cases h : p = i ∧ q = j
    · simp [h, Finset.sum_range_succ]
    · simp [h]

theorem multipliedBy_tabulate (r c k : Nat) (a b : Nat → Nat → ℚ) (hr : 1 ≤ r) (hc : 1 ≤ c)
    (tag : String) (htag : (⟨tabulate c k b⟩ : Matrix).getTypeOfMatrix = Except.ok tag)
    (hunit : tag ≠ "unit") :
    (⟨tabulate r c a⟩ : Matrix).multipliedBy (Operand.matrix ⟨tabulate c k b⟩) =
      Except.ok ⟨tabulate r k (fun i j => ∑ t in Finset.range c, a i t * b t j)⟩ := by
  simp only [Matrix.multipliedBy, htag, ok_bind, hunit, if_false,
    getDimensions_tabulate r c a hr, getDimensions_tabulate c k b hc, ne_eq, not_true_eq_false,
    replicate_eq_tabulate]
  rw [fill_rowMajor r k
    (fun i j newArr => forLoop c (fun t newArr => do
        let cur ← readCell newArr i j
        let x ← (⟨tabulate r c a⟩ : Matrix).cell i t
        let y ← (⟨tabulate c k b⟩ : Matrix).cell t j
        setCell newArr i j
          (some ((← toNumber cur.join) + (← toNumber x) * (← toNumber y)))) newArr)
    (fun _ _ => some 0) (fun i j => some (∑ t in Finset.range c, a i t * b t j))]
  · simp only [ok_bind]
    exact new_ofRows_tabulate r k _ hr
  · intro i j f hi hj hf
    exact accumulate_tabulate r c k a b i j f hi hj hf

theorem multipliedBy_unit (r c r' k : Nat) (a b : Nat → Nat → ℚ) (hr : 1 ≤ r)
    (htag : (⟨tabulate r' k b⟩ : Matrix).getTypeOfMatrix = Except.ok "unit") :
    (⟨tabulate r c a⟩ : Matrix).multipliedBy (Operand.matrix ⟨tabulate r' k b⟩) =
      Except.ok ⟨tabulate r c a⟩ := by
  simp only [Matrix.multipliedBy, htag, ok_bind, if_true]
  exact new_ofGrid_tabulate r c a hr

theorem multipliedBy_notConformal (r c r' k : Nat) (a b : Nat → Nat → ℚ) (hr : 1 ≤ r)
    (hr' : 1 ≤ r') (tag : String)
    (htag : (⟨tabulate r' k b⟩ : Matrix).getTypeOfMatrix = Except.ok tag)
    (hunit : tag ≠ "unit") (hne : c ≠ r') :
    (⟨tabulate r c a⟩ : Matrix).multipliedBy (Operand.matrix ⟨tabulate r' k b⟩) =
      Except.error (Err.error "Matrices are not conformal for multiplication") := by
  simp [Matrix.multipliedBy, htag, hunit, getDimensions_tabulate r c a hr,
    getDimensions_tabulate r' k b hr', hne]

theorem multipliedBy_typeFails (this matrix : Matrix) (e : Err)
    (htag : matrix.getTypeOfMatrix = Except.error e) :
    this.multipliedBy (Operand.matrix matrix) = Except.error e := by
  simp [Matrix.multipliedBy, htag]

end MatrixAndSets

namespace MatrixAndSets

/-! ## Accepted matrices -/

theorem rowsAgree_tabulate (r c : Nat) (a : Nat → Nat → ℚ) (hr : 1 ≤ r) :
    (⟨tabulate r c a⟩ : Matrix).RowsAgree ∧ (⟨tabulate r c a⟩ : Matrix).columns = c ∧
      (⟨tabulate r c a⟩ : Matrix).rows = r := by
  have hcol : (⟨tabulate r c a⟩ : Matrix).columns = c := by
    obtain ⟨k, rfl⟩ : ∃ k, r = k + 1 := ⟨r - 1, by omega⟩
    simp [Matrix.columns, tabulate, List.range_succ_eq_map]
  have hrow : (⟨tabulate r c a⟩ : Matrix).rows = r := tabulate_length r c a
  refine ⟨⟨by rw [hrow]; exact hr, ?_⟩, hcol, hrow⟩
  intro row hrow'
  rw [hcol]
  exact (tabulate_shape r c a).2 row hrow'

theorem exists_tabulate_of_accepted (m : Matrix) (h : m.Accepted) :
    ∃ r c a, 1 ≤ r ∧ m = ⟨tabulate r c a⟩ := by
  obtain ⟨array, hnew⟩ := h
  obtain ⟨_, hr, c, hshape, _⟩ := new_ok array m hnew
  exact ⟨m.arr.length, c, m.entry, hr, eq_tabulate_of_hasShape m _ c hshape⟩

theorem accepted_tabulate (r c : Nat) (a : Nat → Nat → ℚ) (hr : 1 ≤ r) :
    (⟨tabulate r c a⟩ : Matrix).Accepted :=
  ⟨JSVal.ofGrid (tabulate r c a), new_ofGrid_tabulate r c a hr⟩

theorem accepted_of_hasShape (m : Matrix) (r c : Nat) (hr : 1 ≤ r) (h : m.HasShape r c) :
    m.Accepted := by
  rw [eq_tabulate_of_hasShape m r c h]
  exact accepted_tabulate r c _ hr

theorem scalarMultiplyBy_notNumeric (this : Matrix) (number : JSVal)
    (h : number.toNumber = Except.ok none) :
    this.scalarMultiplyBy number = Except.error (Err.error "Value must be a number") := by
  simp [Matrix.scalarMultiplyBy, h]

theorem scalarMultiplyBy_coercionFails (this : Matrix) (number : JSVal) (e : Err)
    (h : number.toNumber = Except.error e) :
    this.scalarMultiplyBy number = Except.error e := by
  simp [Matrix.scalarMultiplyBy, h]

end MatrixAndSets

namespace MatrixAndSets

/-! ## Rows and columns -/

theorem getRow_invalid (r c : Nat) (a : Nat → Nat → ℚ) (hr : 1 ≤ r) (index : Int)
    (h : index < 0 ∨ (r : Int) ≤ index) :
    (⟨tabulate r c a⟩ : Matrix).getRow index = Except.error (Err.error "Invalid index") := by
  have h' : index > (r : Int) - 1 ∨ index < 0 := by omega
  simp [Matrix.getRow, getDimensions_tabulate r c a hr, h']

theorem getRow_tabulate (r c : Nat) (a : Nat → Nat → ℚ) (hr : 1 ≤ r) (index : Int)
    (h0 : 0 ≤ index) (h1 : index < r) :
    (⟨tabulate r c a⟩ : Matrix).getRow index =
      Except.ok (some ((List.range c).map (fun j => a index.toNat j))) := by
  have h' : ¬ (index > (r : Int) - 1 ∨ index < 0) := by omega
  have h2 : index.toNat < r := by omega
  simp [Matrix.getRow, getDimensions_tabulate r c a hr, h', tabulate_getElem?, h2]

/-- The inner loop of `getColumn`: one push, then the loop is left. -/
theorem pushOnce (col : Nat) (hc : 1 ≤ col) (x : Except Err (Option ℚ)) (v : Option ℚ)
    (hx : x = Except.ok v) (columns : List (Option ℚ)) :
    forLoop col (fun _ (st : List (Option ℚ) × Bool) =>
        if st.2 then pure st
        else do
          let y ← x
          pure (st.1 ++ [y], true)) (columns, false) =
      Except.ok (columns ++ [v], true) := by
  have := forLoop_trace
    (fun k => if k = 0 then (columns, false) else (columns ++ [v], true)) col
    (fun _ (st : List (Option ℚ) × Bool) =>
        if st.2 then pure st
        else do
          let y ← x
          pure (st.1 ++ [y], true)) (columns, false) (by simp) (by
      intro i _
      by_cases hi : i = 0
      · simp [hi, hx]
      · simp [hi])
  rw [this]
  have : ¬ col = 0 := by omega
  simp [this]

theorem getColumn_invalid (r c : Nat) (a : Nat → Nat → ℚ) (hr : 1 ≤ r) (index : Int)
    (h : index < 0 ∨ (c : Int) ≤ index) :
    (⟨tabulate r c a⟩ : Matrix).getColumn index =
      Except.error (Err.error "Invalid index") := by
  have h' : index > (c : Int) - 1 ∨ index < 0 := by omega
  simp [Matrix.getColumn, getDimensions_tabulate r c a hr, h']

theorem getColumn_tabulate (r c : Nat) (a : Nat → Nat → ℚ) (hr : 1 ≤ r) (index : Int)
    (h0 : 0 ≤ index) (h1 : index < c) :
    (⟨tabulate r c a⟩ : Matrix).getColumn index =
      Except.ok ((List.range r).map (fun k => some (a k index.toNat))) := by
  have h' : ¬ (index > (c : Int) - 1 ∨ index < 0) := by omega
  have h2 : index.toNat < c := by omega
  have hc : 1 ≤ c := by omega
  simp only [Matrix.getColumn, getDimensions_tabulate r c a hr, ok_bind, h', if_false]
  rw [forLoop_pushAll r (fun k => some (a k index.toNat))]
  · simp
  · intro i acc hi
    rw [pushOnce c hc _ (some (a i index.toNat)) (cell_tabulate r c a i index.toNat hi h2)]
    simp

end MatrixAndSets

namespace MatrixAndSets

/-! ## Classification -/

theorem getLeadingDiagonal_square (n : Nat) (a : Nat → Nat → ℚ) (hn : 1 ≤ n) :
    (⟨tabulate n n a⟩ : Matrix).getLeadingDiagonal =
      Except.ok ((List.range n).map (fun i => some (a i i))) := by
  simp only [Matrix.getLeadingDiagonal, getDimensions_tabulate n n a hn, ok_bind,
    isSquare_tabulate n n a hn, beq_self_eq_true, Bool.not_true, Bool.false_eq_true, if_false]
  rw [forLoop_pushAll n (fun i => some (a i i))]
  · simp
  · intro i acc hi
    simp [cell_tabulate n n a i i hi hi]

theorem getLeadingDiagonal_notSquare (r c : Nat) (a : Nat → Nat → ℚ) (hr : 1 ≤ r)
    (h : r ≠ c) :
    (⟨tabulate r c a⟩ : Matrix).getLeadingDiagonal = Except.ok [] := by
  simp [Matrix.getLeadingDiagonal, getDimensions_tabulate r c a hr,
    isSquare_tabulate r c a hr, h]

/-- The read `this.arr[i][j]` in a row that exists: the cell, or `undefined` past the
end of the row. -/
theorem cell_tabulate_any (r c : Nat) (a : Nat → Nat → ℚ) (i j : Nat) (hi : i < r) :
    (⟨tabulate r c a⟩ : Matrix).cell i j =
      Except.ok (if j < c then some (a i j) else none) := by
  by_cases hj : j < c
  · rw [if_pos hj]
    exact cell_tabulate r c a i j hi hj
  · rw [if_neg hj]
    exact readCell_tabulate_col r c a i j hi (by omega)

/-- The inner loop of `isDiagonal` on a row that exists: the flag stays `true` when
every cell it reads is `0`. -/
theorem isDiagonal_inner (r c : Nat) (a : Nat → Nat → ℚ) (i counter : Nat) (hi : i < r)
    (flag0 : Bool) :
    ∃ flag, forLoop r (fun j flag =>
        if j = counter then pure flag
        else do
          let x ← (⟨tabulate r c a⟩ : Matrix).cell i j
          if x ≠ some 0 then pure false else pure flag) flag0 = Except.ok flag ∧
      (flag = true ↔ flag0 = true ∧ ∀ j, j < r → j ≠ counter → j < c ∧ a i j = 0) := by
  apply forLoop_inv
    (fun k flag => flag = true ↔ flag0 = true ∧ ∀ j, j < k → j ≠ counter → j < c ∧ a i j = 0)
  · simp
  · intro k flag hk hflag
    by_cases hkc : k = counter
    · refine ⟨flag, by simp [hkc], ?_⟩
      rw [hflag]
      constructor
      · rintro ⟨h0, h⟩
        refine ⟨h0, fun j hj hjc => ?_⟩
        have : j < k := by omega
        exact h j this hjc
      · rintro ⟨h0, h⟩
        exact ⟨h0, fun j hj hjc => h j (by omega) hjc⟩
    · by_cases hz : k < c ∧ a i k = 0
      · refine ⟨flag, ?_, ?_⟩
        · simp [hkc, cell_tabulate_any r c a i k hi, hz.1, hz.2]
        · rw [hflag]
          constructor
          · rintro ⟨h0, h⟩
            refine ⟨h0, fun j hj hjc => ?_⟩
            by_cases hjk : j = k
            · subst hjk
              exact hz
            · exact h j (by omega) hjc
          · rintro ⟨h0, h⟩
            exact ⟨h0, fun j hj hjc => h j (by omega) hjc⟩
      · refine ⟨false, ?_, ?_⟩
        · simp only [hkc, if_false, cell_tabulate_any r c a i k hi, ok_bind]
          by_cases hk2 : k < c
          · have : ¬ a i k = 0 := fun h => hz ⟨hk2, h⟩
            simp [hk2, this]
          · simp [hk2]
        · constructor
          · intro h
            exact absurd h (by decide)
          · rintro ⟨_, h⟩
            exact absurd (h k (by omega) hkc) hz

/-- The loops of `isDiagonal` on a matrix with no more columns than rows. -/
theorem isDiagonal_loops (r c : Nat) (a : Nat → Nat → ℚ) (hcr : c ≤ r) (flag0 : Bool) :
    ∃ st : Bool × Nat, forLoop c (fun i (st : Bool × Nat) => do
        let flag ← forLoop r (fun j flag =>
          if j = st.2 then pure flag
          else do
            let x ← (⟨tabulate r c a⟩ : Matrix).cell i j
            if x ≠ some 0 then pure false else pure flag) st.1
        pure (flag, st.2 + 1)) (flag0, 0) = Except.ok st ∧
      (st.1 = true ↔ flag0 = true ∧
        ∀ i, i < c → ∀ j, j < r → j ≠ i → j < c ∧ a i j = 0) := by
  have := forLoop_inv
    (fun k (st : Bool × Nat) => st.2 = k ∧ (st.1 = true ↔ flag0 = true ∧
        ∀ i, i < k → ∀ j, j < r → j ≠ i → j < c ∧ a i j = 0)) c
    (fun i (st : Bool × Nat) => do
        let flag ← forLoop r (fun j flag =>
          if j = st.2 then pure flag
          else do
            let x ← (⟨tabulate r c a⟩ : Matrix).cell i j
            if x ≠ some 0 then pure false else pure flag) st.1
        pure (flag, st.2 + 1)) (flag0, 0) (by simp) (by
      intro k st hk hst
      obtain ⟨hcount, hflag⟩ := hst
      obtain ⟨flag, hloop, hinner⟩ := isDiagonal_inner r c a k st.2 (by omega) st.1
      refine ⟨(flag, st.2 + 1), ?_, ?_, ?_⟩
      · dsimp only
        rw [hloop]
        rfl
      · simp [hcount]
      · show flag = true ↔ _
        rw [hinner, hflag, hcount]
        constructor
        · rintro ⟨⟨h0, h⟩, h'⟩
          refine ⟨h0, fun i hi j hj hji => ?_⟩
          by_cases hik : i = k
          · subst hik
            exact h' j hj hji
          · exact h i (by omega) j hj hji
        · rintro ⟨h0, h⟩
          exact ⟨⟨h0, fun i hi j hj hji => h i (by omega) j hj hji⟩,
            fun j hj hji => h k (by omega) j hj hji⟩)
  obtain ⟨st, hst, _, hflag⟩ := this
  exact ⟨st, hst, hflag⟩

/-- What `isDiagonal()` returns on a square matrix. -/
theorem isDiagonal_square (n : Nat) (a : Nat → Nat → ℚ) (hn : 1 ≤ n) :
    ∃ b, (⟨tabulate n n a⟩ : Matrix).isDiagonal = Except.ok b ∧
      (b = true ↔ (∀ i, i < n → a i i ≠ 0) ∧
        ∀ i j, i < n → j < n → i ≠ j → a i j = 0) := by
  obtain ⟨st, hst, hflag⟩ := isDiagonal_loops n n a (le_refl n)
    (if ((List.range n).map (fun i => some (a i i))).contains (some 0) then false else true)
  refine ⟨st.1, ?_, ?_⟩
  · simp only [Matrix.isDiagonal, getDimensions_tabulate n n a hn, ok_bind,
      getLeadingDiagonal_square n a hn]
    rw [hst]
    rfl
  · rw [hflag]
    have hdiag : (if ((List.range n).map (fun i => some (a i i))).contains (some 0) then false
        else true) = true ↔ ∀ i, i < n → a i i ≠ 0 := by
      by_cases h : ((List.range n).map (fun i => some (a i i))).contains (some 0) = true
      · rw [if_pos h]
        have h' := h
        simp only [List.contains_iff_exists_mem_beq, List.mem_map, List.mem_range] at h'
        obtain ⟨x, ⟨i, hi, rfl⟩, hx⟩ := h'
        have : a i i = 0 := by
          have hx' : (0 : ℚ) = a i i := by simpa using hx
          exact hx'.symm
        constructor
        · intro hf
          exact absurd hf (by decide)
        · intro hall
          exact absurd this (hall i hi)
      · rw [if_neg h]
        refine ⟨fun _ i hi h0 => h ?_, fun _ => rfl⟩
        simp only [List.contains_iff_exists_mem_beq, List.mem_map, List.mem_range]
        exact ⟨some (a i i), ⟨i, hi, rfl⟩, by simp [h0]⟩
    rw [hdiag]
    constructor
    · rintro ⟨h1, h2⟩
      exact ⟨h1, fun i j hi hj hij => (h2 i hi j hj (fun h => hij h.symm)).2⟩
    · rintro ⟨h1, h2⟩
      exact ⟨h1, fun i hi j hj hji => ⟨hj, h2 i j hi hj (fun h => hji h.symm)⟩⟩

end MatrixAndSets

namespace MatrixAndSets

/-! ## Vectors -/

theorem numberOf_some {R : Type} (x : R) : numberOf (some x) = Except.ok x := rfl

theorem mapWithIndex_zipWith {R : Type} (op : R → R → R) (w : List R) :
    ∀ (l : List R) (k : Nat), k + l.length ≤ w.length →
      mapWithIndex (fun num index => do
        pure (op num (← numberOf w[index]?))) l k = Except.ok (List.zipWith op l (w.drop k)) := by
  intro l
  induction l with
  | nil => intro k _; simp [mapWithIndex]
  | cons x xs ih =>
    intro k hk
    have hlt : k < w.length := by
      simp only [List.length_cons] at hk
      omega
    have hdrop : w.drop k = w[k] :: w.drop (k + 1) := List.drop_eq_getElem_cons hlt
    have hrest := ih (k + 1) (by simp only [List.length_cons] at hk; omega)
    simp only [mapWithIndex, List.getElem?_eq_getElem hlt, numberOf_some, ok_bind, pure_eq_ok]
    simp only [pure_eq_ok] at hrest
    rw [hrest, hdrop]
    rfl

theorem reduceWithIndex_sum {R : Type} [Field R] (w : List R) :
    ∀ (l : List R) (k : Nat) (acc : R), k + l.length ≤ w.length →
      reduceWithIndex (fun acc num index => do
        pure (acc + num * (← numberOf w[index]?))) l k acc =
        Except.ok (acc + (List.zipWith (fun x y => x * y) l (w.drop k)).sum) := by
  intro l
  induction l with
  | nil => intro k acc _; simp [reduceWithIndex]
  | cons x xs ih =>
    intro k acc hk
    have hlt : k < w.length := by
      simp only [List.length_cons] at hk
      omega
    have hdrop : w.drop k = w[k] :: w.drop (k + 1) := List.drop_eq_getElem_cons hlt
    have hrest := ih (k + 1) (acc + x * w[k]) (by simp only [List.length_cons] at hk; omega)
    simp only [reduceWithIndex, List.getElem?_eq_getElem hlt, numberOf_some, ok_bind,
      pure_eq_ok]
    simp only [pure_eq_ok] at hrest
    rw [hrest, hdrop]
    simp only [List.zipWith_cons_cons, List.sum_cons, add_assoc]

theorem Vector.new_numbers {R : Type} (l : List R) (h : l ≠ []) :
    Vector.new (some (l.map some)) = Except.ok ⟨l⟩ := by
  have hlen : ¬ l.length = 0 := fun h0 => h (List.length_eq_zero.mp h0)
  have hany : (l.map some).any (fun num => num.isNone) = false := by
    simp [List.any_eq_false]
  have hfm : (l.map some).filterMap id = l := by
    rw [List.filterMap_map]
    exact (filterMap_some_fun id l).trans (List.map_id l)
  unfold Vector.new
  simp only [List.length_map, beq_iff_eq, hlen, if_false, hany, Bool.false_eq_true, hfm,
    pure_eq_ok]

theorem Vector.new_empty {R : Type} :
    Vector.new (some ([] : List (Option R))) =
      Except.error (Err.error "Value must be a non-empty array") := rfl

theorem zipWith_ne_nil {R : Type} (op : R → R → R) (l w : List R) (hl : l ≠ [])
    (hlen : l.length = w.length) : List.zipWith op l w ≠ [] := by
  intro h
  have := congrArg List.length h
  simp only [List.length_zipWith, List.length_nil] at this
  have : l.length = 0 := by omega
  exact hl (List.length_eq_zero.mp this)

theorem Vector.add_ok {R : Type} [Field R] (u v : Vector R) (hu : u.arr ≠ [])
    (hlen : u.arr.length = v.arr.length) :
    u.add (VectorOperand.vector v) = Except.ok ⟨List.zipWith (fun x y => x + y) u.arr v.arr⟩ := by
  have := mapWithIndex_zipWith (fun x y => x + y) v.arr u.arr 0 (by omega)
  simp only [Vector.add, Vector.getDimensions, hlen, ne_eq, not_true_eq_false, if_false, this,
    ok_bind, List.drop_zero]
  exact Vector.new_numbers _ (zipWith_ne_nil _ _ _ hu hlen)

theorem Vector.subtract_ok {R : Type} [Field R] (u v : Vector R) (hu : u.arr ≠ [])
    (hlen : u.arr.length = v.arr.length) :
    u.subtract (VectorOperand.vector v) =
      Except.ok ⟨List.zipWith (fun x y => x - y) u.arr v.arr⟩ := by
  have := mapWithIndex_zipWith (fun x y => x - y) v.arr u.arr 0 (by omega)
  simp only [Vector.subtract, Vector.getDimensions, hlen, ne_eq, not_true_eq_false, if_false,
    this, ok_bind, List.drop_zero]
  exact Vector.new_numbers _ (zipWith_ne_nil _ _ _ hu hlen)

theorem Vector.add_mismatch {R : Type} [Field R] (u v : Vector R)
    (hlen : u.arr.length ≠ v.arr.length) :
    u.add (VectorOperand.vector v) =
      Except.error (Err.error "Vectors must be of the same dimension") := by
  simp [Vector.add, Vector.getDimensions, hlen]

theorem Vector.subtract_mismatch {R : Type} [Field R] (u v : Vector R)
    (hlen : u.arr.length ≠ v.arr.length) :
    u.subtract (VectorOperand.vector v) =
      Except.error (Err.error "Vectors must be of the same dimension") := by
  simp [Vector.subtract, Vector.getDimensions, hlen]

theorem Vector.dotProduct_ok {R : Type} [Field R] (u v : Vector R)
    (hlen : u.arr.length = v.arr.length) :
    u.dotProduct (VectorOperand.vector v) =
      Except.ok (List.zipWith (fun x y => x * y) u.arr v.arr).sum := by
  have := reduceWithIndex_sum v.arr u.arr 0 0 (by omega)
  simp only [Vector.dotProduct, Vector.getDimensions, hlen, ne_eq, not_true_eq_false, if_false,
    this, List.drop_zero, zero_add]

theorem Vector.dotProduct_mismatch {R : Type} [Field R] (u v : Vector R)
    (hlen : u.arr.length ≠ v.arr.length) :
    u.dotProduct (VectorOperand.vector v) =
      Except.error (Err.error "Vectors must be of the same dimension") := by
  simp [Vector.dotProduct, Vector.getDimensions, hlen]

theorem foldl_squares {R : Type} [Field R] (l : List R) (acc : R) :
    l.foldl (fun acc num => acc + num * num) acc = acc + (l.map (fun x => x * x)).sum := by
  induction l generalizing acc with
  | nil => simp
  | cons x xs ih => simp [ih, add_assoc]

theorem zipWith_self_mul {R : Type} [Field R] (l : List R) :
    List.zipWith (fun x y => x * y) l l = l.map (fun x => x * x) := by
  induction l with
  | nil => rfl
  | cons x xs ih => simp [ih]

theorem Vector.magnitude_real (v : Vector ℝ) :
    v.magnitude Real.sqrt = Real.sqrt ((v.arr.map (fun x => x * x)).sum) := by
  simp [Vector.magnitude, foldl_squares]

end MatrixAndSets

namespace MatrixAndSets

/-! ## Sets -/

theorem foldl_insert_nodup {α : Type} [DecidableEq α] (b : List α) :
    ∀ acc : List α, b.Nodup →
      b.foldl ExtendedSet.insert acc = acc ++ b.filter (fun x => decide (x ∉ acc)) := by
  induction b with
  | nil => intro acc _; simp
  | cons x xs ih =>
    intro acc hb
    have hx : x ∉ xs := (List.nodup_cons.mp hb).1
    have hxs : xs.Nodup := (List.nodup_cons.mp hb).2
    by_cases hmem : x ∈ acc
    · simp only [List.foldl_cons, ExtendedSet.insert, hmem, if_true, ih acc hxs]
      simp [List.filter_cons, hmem]
    · simp only [List.foldl_cons, ExtendedSet.insert, hmem, if_false, ih (acc ++ [x]) hxs]
      have hfilter : xs.filter (fun y => decide (y ∉ acc ++ [x])) =
          xs.filter (fun y => decide (y ∉ acc)) := by
        apply List.filter_congr
        intro y hy
        have : y ≠ x := fun h => hx (h ▸ hy)
        simp [this]
      rw [hfilter]
      simp [List.filter_cons, hmem]

theorem ExtendedSet.new_of_nodup {α : Type} [DecidableEq α] (l : List α) (h : l.Nodup) :
    ExtendedSet.new l = ⟨l⟩ := by
  unfold ExtendedSet.new
  rw [foldl_insert_nodup l [] h]
  simp

theorem ExtendedSet.union_items {α : Type} [DecidableEq α] (A B : ExtendedSet α)
    (hA : A.items.Nodup) (hB : B.items.Nodup) :
    (A.union B).items = A.items ++ B.items.filter (fun x => !A.has x) := by
  unfold ExtendedSet.union ExtendedSet.new
  rw [List.foldl_append, foldl_insert_nodup A.items [] hA, foldl_insert_nodup B.items _ hB]
  simp [ExtendedSet.has]

theorem ExtendedSet.intersection_items {α : Type} [DecidableEq α] (A B : ExtendedSet α)
    (hA : A.items.Nodup) :
    (A.intersection B).items = A.items.filter (fun x => B.has x) := by
  unfold ExtendedSet.intersection
  rw [ExtendedSet.new_of_nodup _ (hA.filter _)]

theorem ExtendedSet.difference_items {α : Type} [DecidableEq α] (A B : ExtendedSet α)
    (hA : A.items.Nodup) :
    (A.difference B).items = A.items.filter (fun x => !B.has x) := by
  unfold ExtendedSet.difference
  rw [ExtendedSet.new_of_nodup _ (hA.filter _)]

end MatrixAndSets

namespace MatrixAndSets

/-! ## Loops that throw -/

/-- A loop that has thrown after `m` iterations has thrown after any larger number
of iterations. -/
theorem forLoop_error_of_shorter {σ : Type} (m n : Nat) (h : m ≤ n)
    (body : Nat → σ → Except Err σ) (s : σ) (e : Err)
    (hm : forLoop m body s = Except.error e) : forLoop n body s = Except.error e := by
  induction n, h using Nat.le_induction with
  | base => exact hm
  | succ k _ ih => rw [forLoop_succ, ih, error_bind]

/-- The first `k ≤ r` iterations of the outer loop of `isDiagonal` on a matrix of `r`
rows complete, and leave the counter at `k`. -/
theorem isDiagonal_outer_start (r c : Nat) (a : Nat → Nat → ℚ) (k : Nat) (hk : k ≤ r)
    (flag0 : Bool) :
    ∃ st : Bool × Nat, forLoop k (fun i (st : Bool × Nat) => do
        let flag ← forLoop r (fun j flag =>
          if j = st.2 then pure flag
          else do
            let x ← (⟨tabulate r c a⟩ : Matrix).cell i j
            if x ≠ some 0 then pure false else pure flag) st.1
        pure (flag, st.2 + 1)) (flag0, 0) = Except.ok st ∧ st.2 = k := by
  apply forLoop_inv (fun i (st : Bool × Nat) => st.2 = i)
  · rfl
  · intro i st hi hst
    obtain ⟨flag, hloop, _⟩ := isDiagonal_inner r c a i st.2 (by omega) st.1
    refine ⟨(flag, st.2 + 1), ?_, ?_⟩
    · dsimp only
      rw [hloop]
      rfl
    · simp [hst]

/-- On a matrix with more columns than rows, `isDiagonal()` throws: at the outer
iteration `i = r` it reads `this.arr[r][0]`. -/
theorem isDiagonal_throws (r c : Nat) (a : Nat → Nat → ℚ) (hr : 1 ≤ r) (hrc : r < c) :
    (⟨tabulate r c a⟩ : Matrix).isDiagonal = Except.error Err.typeError := by
  simp only [Matrix.isDiagonal, getDimensions_tabulate r c a hr, ok_bind,
    getLeadingDiagonal_notSquare r c a hr (by omega)]
  obtain ⟨st, hst, hcount⟩ := isDiagonal_outer_start r c a r (le_refl r)
    (if ([] : List (Option ℚ)).contains (some 0) then false else true)
  have hinner1 : forLoop 1 (fun j flag =>
          if j = st.2 then pure flag
          else do
            let x ← (⟨tabulate r c a⟩ : Matrix).cell r j
            if x ≠ some 0 then pure false else pure flag) st.1 =
      Except.error Err.typeError := by
    have h0 : ¬ 0 = st.2 := by omega
    have hcell : (⟨tabulate r c a⟩ : Matrix).cell r 0 = Except.error Err.typeError :=
      readCell_tabulate_row r c a r 0 (le_refl r)
    simp [forLoop_succ, h0, hcell]
  have hinner := forLoop_error_of_shorter 1 r hr _ st.1 Err.typeError hinner1
  have houter : forLoop (r + 1) (fun i (st : Bool × Nat) => do
        let flag ← forLoop r (fun j flag =>
          if j = st.2 then pure flag
          else do
            let x ← (⟨tabulate r c a⟩ : Matrix).cell i j
            if x ≠ some 0 then pure false else pure flag) st.1
        pure (flag, st.2 + 1))
      ((if ([] : List (Option ℚ)).contains (some 0) then false else true), 0) =
      Except.error Err.typeError := by
    rw [forLoop_succ, hst, ok_bind, hinner]
    rfl
  rw [forLoop_error_of_shorter (r + 1) c hrc _ _ Err.typeError houter]
  rfl

/-- On a matrix with no more columns than rows, `isDiagonal()` returns a boolean. -/
theorem isDiagonal_completes (r c : Nat) (a : Nat → Nat → ℚ) (hr : 1 ≤ r) (hcr : c ≤ r) :
    ∃ b, (⟨tabulate r c a⟩ : Matrix).isDiagonal = Except.ok b := by
  by_cases hsq : r = c
  · subst hsq
    obtain ⟨b, hb, _⟩ := isDiagonal_square r a hr
    exact ⟨b, hb⟩
  · obtain ⟨st, hst, _⟩ := isDiagonal_loops r c a hcr
      (if ([] : List (Option ℚ)).contains (some 0) then false else true)
    refine ⟨st.1, ?_⟩
    simp only [Matrix.isDiagonal, getDimensions_tabulate r c a hr, ok_bind,
      getLeadingDiagonal_notSquare r c a hr hsq]
    rw [hst]
    rfl

end MatrixAndSets

namespace MatrixAndSets

/-! ## The claims -/

/-- C5. The constructor checks its argument in a fixed order and reports the first
violation: "non-empty array" when the argument is not an array or is empty, else
"2D array" when some row is not an array, else "same length" when two rows differ in
length, else "must be numbers" when some cell is not a number; in every other case
it succeeds and the stored grid is the argument, cell for cell. -/
theorem constructor_validates_in_order (array : JSVal) :
    ((array.isArray = false ∨ array.elems = []) →
      Matrix.new array = Except.error (Err.error "Value must be a non-empty array")) ∧
    (array.isArray = true → array.elems ≠ [] →
      ((∃ row ∈ array.elems, row.isArray = false) →
        Matrix.new array = Except.error (Err.error "Array must be a 2D array")) ∧
      ((∀ row ∈ array.elems, row.isArray = true) →
        ((∃ r₁ ∈ array.elems, ∃ r₂ ∈ array.elems, r₁.elems.length ≠ r₂.elems.length) →
          Matrix.new array = Except.error (Err.error "All rows must have the same length")) ∧
        ((∀ r₁ ∈ array.elems, ∀ r₂ ∈ array.elems, r₁.elems.length = r₂.elems.length) →
          ((∃ row ∈ array.elems, ∃ x ∈ row.elems, x.isNumber = false) →
            Matrix.new array = Except.error (Err.error "All elements must be numbers")) ∧
          ((∀ row ∈ array.elems, ∀ x ∈ row.elems, x.isNumber = true) →
            ∃ m, Matrix.new array = Except.ok m ∧ JSVal.ofGrid m.arr = array ∧
              m.rows = array.elems.length ∧
              ∀ i, (m.arr.getD i []).length = ((array.elems.getD i JSVal.undefined).elems).length)))) := by
  have hc := new_cases array
  refine ⟨hc.1, fun harr hne => ⟨(hc.2 harr hne).1, fun hrows => ⟨((hc.2 harr hne).2 hrows).1,
    fun hsame => ⟨(((hc.2 harr hne).2 hrows).2 hsame).1, fun hnum => ?_⟩⟩⟩⟩
  have hnew := (((hc.2 harr hne).2 hrows).2 hsame).2 hnum
  refine ⟨_, hnew, (new_ok array _ hnew).1, ?_, ?_⟩
  · simp [Matrix.rows]
  · intro i
    simp only [List.getD_eq_getElem?_getD, List.getElem?_map]
    cases hi : array.elems[i]? with
    | none => simp [JSVal.elems]
    | some row =>
      have hrow : row ∈ array.elems := List.getElem?_mem hi
      have := congrArg List.length (JSVal.map_num_filterMap row.elems (hnum row hrow))
      rw [List.length_map] at this
      simpa using this

/-- C5, at the arguments of the repository's tests: `[[1,2],[3,4]]` is stored as it
is, and `[]`, `[1,2,3]`, `[[1,2],[3,"a"]]` are refused with the first failing check. -/
theorem constructor_validates_in_order_witness :
    Matrix.new (JSVal.arr [JSVal.arr [JSVal.num 1, JSVal.num 2],
        JSVal.arr [JSVal.num 3, JSVal.num 4]]) = Except.ok ⟨[[1, 2], [3, 4]]⟩ ∧
    Matrix.new (JSVal.arr []) = Except.error (Err.error "Value must be a non-empty array") ∧
    Matrix.new (JSVal.arr [JSVal.num 1, JSVal.num 2, JSVal.num 3]) =
      Except.error (Err.error "Array must be a 2D array") ∧
    Matrix.new (JSVal.arr [JSVal.arr [JSVal.num 1, JSVal.num 2],
        JSVal.arr [JSVal.num 3, JSVal.str "a"]]) =
      Except.error (Err.error "All elements must be numbers") := by
  refine ⟨by decide, ?_, ?_, ?_⟩
  · exact (constructor_validates_in_order (JSVal.arr [])).1 (Or.inr rfl)
  · exact ((constructor_validates_in_order
      (JSVal.arr [JSVal.num 1, JSVal.num 2, JSVal.num 3])).2 rfl (by simp [JSVal.elems])).1
      ⟨JSVal.num 1, by simp [JSVal.elems], rfl⟩
  · exact (((((constructor_validates_in_order
      (JSVal.arr [JSVal.arr [JSVal.num 1, JSVal.num 2],
        JSVal.arr [JSVal.num 3, JSVal.str "a"]])).2 rfl (by simp [JSVal.elems])).2
      (by simp [JSVal.elems, JSVal.isArray])).2
      (by simp [JSVal.elems])).1
      ⟨JSVal.arr [JSVal.num 3, JSVal.str "a"], by simp [JSVal.elems], JSVal.str "a",
        by simp [JSVal.elems], rfl⟩)

end MatrixAndSets

namespace MatrixAndSets

/-- What `getInverse()` returns on a square matrix with a non-zero determinant. -/
theorem getInverse_ok (A : Matrix) (n : Nat) (d : ℚ)
    (hn : 1 ≤ n) (hA : A.HasShape n n) (hd : A.getDeterminant = Except.ok d) (hd0 : d ≠ 0) :
    ∃ M, A.getInverse = Except.ok M ∧ M.HasShape n n ∧
      (n = 1 → M.arr = [[1 / A.entry 0 0]]) ∧
      (2 ≤ n → ∀ i j, i < n → j < n →
        ∃ c, A.getCofactor j i = Except.ok c ∧ M.cell i j = Except.ok (some (c / d))) := by
  have hEq := eq_tabulate_of_hasShape A n n hA
  have hdet : (squareOf n A.entry).det = d := by
    have := getDeterminant_tabulate n A.entry hn
    rw [← hEq, hd] at this
    exact (Except.ok.inj this).symm
  by_cases h1 : n = 1
  · subst h1
    refine ⟨⟨[[1 / A.entry 0 0]]⟩, ?_, by simp [Matrix.HasShape, Shape], fun _ => rfl,
      fun h => absurd h (by decide)⟩
    conv_lhs => rw [hEq]
    exact getInverse_one A.entry (by rw [hdet]; exact hd0)
  · have h2 : 2 ≤ n := by omega
    refine ⟨⟨tabulate n n (fun i j => cofactorOf n A.entry j i / (squareOf n A.entry).det)⟩,
      ?_, hasShape_tabulate n n _, fun h => absurd h h1, ?_⟩
    · conv_lhs => rw [hEq]
      exact getInverse_tabulate n A.entry h2 (by rw [hdet]; exact hd0)
    · intro _ i j hi hj
      refine ⟨cofactorOf n A.entry j i, ?_, ?_⟩
      · conv_lhs => rw [hEq]
        exact getCofactor_tabulate n A.entry h2 j i hj hi
      · rw [cell_tabulate n n _ i j hi hj, hdet]

/-- C3. For a square `n`×`n` matrix whose determinant `d` is not zero, `getInverse()`
returns an `n`×`n` matrix: `[[1/a]]` for the 1×1 matrix `[[a]]`, and for `n ≥ 2` the
matrix whose cell `[i][j]` is `getCofactor(j, i) / d`. -/
theorem getInverse_is_adjugate_over_determinant (A : Matrix) (n : Nat) (d : ℚ)
    (hn : 1 ≤ n) (hA : A.HasShape n n) (hd : A.getDeterminant = Except.ok d) (hd0 : d ≠ 0) :
    ∃ M, A.getInverse = Except.ok M ∧ M.HasShape n n ∧
      (n = 1 → M.arr = [[1 / A.entry 0 0]]) ∧
      (2 ≤ n → ∀ i j, i < n → j < n →
        ∃ c, A.getCofactor j i = Except.ok c ∧ M.cell i j = Except.ok (some (c / d))) :=
  getInverse_ok A n d hn hA hd hd0

/-- C3 at the matrix of the repository's test: the inverse of `[[4,7],[2,6]]`, whose
determinant is `10`, is `[[6/10, -7/10], [-2/10, 4/10]]`. -/
theorem getInverse_is_adjugate_over_determinant_witness :
    (⟨[[4, 7], [2, 6]]⟩ : Matrix).getDeterminant = Except.ok 10 ∧
    (⟨[[4, 7], [2, 6]]⟩ : Matrix).getInverse =
      Except.ok ⟨[[6 / 10, -7 / 10], [-2 / 10, 4 / 10]]⟩ ∧
    ∃ M, (⟨[[4, 7], [2, 6]]⟩ : Matrix).getInverse = Except.ok M ∧ M.HasShape 2 2 :=
  ⟨by decide!, by decide!,
    (getInverse_is_adjugate_over_determinant ⟨[[4, 7], [2, 6]]⟩ 2 10 (by decide) (by decide)
      (by decide!) (by norm_num)).imp (fun _ h => ⟨h.1, h.2.1⟩)⟩

end MatrixAndSets

namespace MatrixAndSets

/-- What `getTranspose()` returns on a matrix with at least one row and one column. -/
theorem getTranspose_ok (A : Matrix) (r c : Nat) (hr : 1 ≤ r) (hc : 1 ≤ c)
    (hA : A.HasShape r c) :
    A.getTranspose = Except.ok ⟨tabulate c r (fun i j => A.entry j i)⟩ := by
  conv_lhs => rw [eq_tabulate_of_hasShape A r c hA]
  exact getTranspose_tabulate r c A.entry hr hc

/-- C7 (amended). For a matrix `A` of `r ≥ 1` rows and `c ≥ 1` columns,
`A.getTranspose()` succeeds with `c` rows and `r` columns and cell `[j][i]` equal to
`A[i][j]`, and `A.getTranspose().getTranspose()` succeeds and is `A`. -/
theorem getTranspose_involutive (A : Matrix) (r c : Nat) (hr : 1 ≤ r) (hc : 1 ≤ c)
    (hA : A.HasShape r c) :
    ∃ T, A.getTranspose = Except.ok T ∧ T.HasShape c r ∧
      (∀ i j, i < r → j < c → T.cell j i = A.cell i j) ∧
      T.getTranspose = Except.ok A := by
  refine ⟨_, getTranspose_ok A r c hr hc hA, hasShape_tabulate c r _, ?_, ?_⟩
  · intro i j hi hj
    rw [cell_tabulate c r _ j i hj hi, cell_of_hasShape A r c hA i j hi hj]
  · rw [getTranspose_tabulate c r _ hc hr]
    exact congrArg Except.ok (eq_tabulate_of_hasShape A r c hA).symm

/-- C7 (amended) at the 2×3 matrix `[[1,2,3],[4,5,6]]`. -/
theorem getTranspose_involutive_witness :
    ∃ T, (⟨[[1, 2, 3], [4, 5, 6]]⟩ : Matrix).getTranspose = Except.ok T ∧ T.HasShape 3 2 ∧
      (∀ i j, i < 2 → j < 3 → T.cell j i = (⟨[[1, 2, 3], [4, 5, 6]]⟩ : Matrix).cell i j) ∧
      T.getTranspose = Except.ok ⟨[[1, 2, 3], [4, 5, 6]]⟩ :=
  getTranspose_involutive ⟨[[1, 2, 3], [4, 5, 6]]⟩ 2 3 (by decide) (by decide) (by decide)

/-- C7 as stated fails: the constructor accepts `[[]]`, a matrix of one row and no
column, and `getTranspose()` of it throws (its `newArr` is the empty array, which the
constructor refuses). -/
theorem getTranspose_fails_without_columns :
    Matrix.new (JSVal.arr [JSVal.arr []]) = Except.ok ⟨[[]]⟩ ∧
    (⟨[[]]⟩ : Matrix).getTranspose =
      Except.error (Err.error "Value must be a non-empty array") :=
  ⟨by decide, by decide⟩

/-- C1, at its own example: `A = [[1,0],[0,1]]` and `B = [[1,2,3],[4,5,6]]` are
well-shaped and conformal for multiplication (2×2 and 2×3), but `A.multipliedBy(B)`
throws a `TypeError`: `B.getTypeOfMatrix()` runs `isDiagonal()`, whose outer loop
runs over the columns and reads `this.arr[2][0]` in a matrix of two rows. -/
theorem multipliedBy_throws_on_wide_operand :
    (⟨[[1, 0], [0, 1]]⟩ : Matrix).HasShape 2 2 ∧
    (⟨[[1, 2, 3], [4, 5, 6]]⟩ : Matrix).HasShape 2 3 ∧
    (⟨[[1, 2, 3], [4, 5, 6]]⟩ : Matrix).isDiagonal = Except.error Err.typeError ∧
    (⟨[[1, 0], [0, 1]]⟩ : Matrix).multipliedBy (Operand.matrix ⟨[[1, 2, 3], [4, 5, 6]]⟩) =
      Except.error Err.typeError :=
  ⟨by decide, by decide, by decide, by decide⟩

/-- C9, at its own example: `A = [[1,2,3]]` has three columns and `B = [[1,0],[0,1]]`
two rows, yet `A.multipliedBy(B)` returns `A`: `B` is classified "unit" and the
method returns before it compares the dimensions. -/
theorem multipliedBy_unit_skips_conformality_check :
    (⟨[[1, 2, 3]]⟩ : Matrix).getDimensions = Except.ok (1, 3) ∧
    (⟨[[1, 0], [0, 1]]⟩ : Matrix).getDimensions = Except.ok (2, 2) ∧
    (⟨[[1, 0], [0, 1]]⟩ : Matrix).getTypeOfMatrix = Except.ok "unit" ∧
    (⟨[[1, 2, 3]]⟩ : Matrix).multipliedBy (Operand.matrix ⟨[[1, 0], [0, 1]]⟩) =
      Except.ok ⟨[[1, 2, 3]]⟩ :=
  ⟨by decide, by decide, by decide, by decide⟩

/-- C10, at its own example: `getTypeOfMatrix()` of the 2×3 matrix
`[[1,2,3],[4,5,6]]` does not return "rectangular" but throws a `TypeError`, raised by
`isDiagonal()` (called from `isUnitMatrix()`) when it reads `this.arr[2][0]`. -/
theorem getTypeOfMatrix_throws_on_wide_matrix :
    (⟨[[1, 2, 3], [4, 5, 6]]⟩ : Matrix).HasShape 2 3 ∧
    (⟨[[1, 2, 3], [4, 5, 6]]⟩ : Matrix).isNullMatrix = Except.ok false ∧
    (⟨[[1, 2, 3], [4, 5, 6]]⟩ : Matrix).isUnitMatrix = Except.error Err.typeError ∧
    (⟨[[1, 2, 3], [4, 5, 6]]⟩ : Matrix).getTypeOfMatrix = Except.error Err.typeError :=
  ⟨by decide, by decide, by decide, by decide⟩

end MatrixAndSets

namespace MatrixAndSets

/-- A result that is a tabulated grid with at least one row keeps the row invariant
and has the tabulated number of columns. -/
theorem inv_of_ok_tabulate (M : Matrix) (r c : Nat) (a : Nat → Nat → ℚ) (hr : 1 ≤ r)
    (h : (Except.ok ⟨tabulate r c a⟩ : Except Err Matrix) = Except.ok M) :
    M.RowsAgree ∧ M.columns = c := by
  cases h
  exact ⟨(rowsAgree_tabulate r c a hr).1, (rowsAgree_tabulate r c a hr).2.1⟩

theorem columns_of_new (array : JSVal) (m : Matrix) (h : Matrix.new array = Except.ok m) :
    m.columns = ((array.elems.headD JSVal.undefined).elems).length := by
  have := (new_ok array m h).1
  subst this
  cases m with
  | mk arr =>
    cases arr with
    | nil => rfl
    | cons x xs => simp [Matrix.columns, JSVal.ofGrid, JSVal.elems]

theorem cellwise_inv (op : ℚ → ℚ → ℚ) (A B M : Matrix) (hA : A.Accepted) (hB : B.Accepted)
    (hM : Matrix.cellwise op A (Operand.matrix B) = Except.ok M) :
    M.RowsAgree ∧ (1 ≤ A.columns → 1 ≤ M.columns) := by
  obtain ⟨r, c, a, hr, rfl⟩ := exists_tabulate_of_accepted A hA
  obtain ⟨r', c', b, hr', rfl⟩ := exists_tabulate_of_accepted B hB
  by_cases h : r = r' ∧ c = c'
  · obtain ⟨rfl, rfl⟩ := h
    rw [cellwise_tabulate op r c a b hr] at hM
    have := inv_of_ok_tabulate M r c _ hr hM
    refine ⟨this.1, fun hc => ?_⟩
    rw [(rowsAgree_tabulate r c a hr).2.1] at hc
    rw [this.2]
    exact hc
  · rw [cellwise_notConformal op r c r' c' a b hr hr' h] at hM
    exact Except.noConfusion hM

theorem scalarMultiplyBy_inv (A M : Matrix) (number : JSVal) (hA : A.Accepted)
    (hM : A.scalarMultiplyBy number = Except.ok M) :
    M.RowsAgree ∧ (1 ≤ A.columns → 1 ≤ M.columns) := by
  obtain ⟨r, c, a, hr, rfl⟩ := exists_tabulate_of_accepted A hA
  cases hk : number.toNumber with
  | error e =>
    rw [scalarMultiplyBy_coercionFails _ number e hk] at hM
    exact Except.noConfusion hM
  | ok k =>
    cases k with
    | none =>
      rw [scalarMultiplyBy_notNumeric _ number hk] at hM
      exact Except.noConfusion hM
    | some k =>
      rw [scalarMultiplyBy_tabulate r c a hr number k hk] at hM
      have := inv_of_ok_tabulate M r c _ hr hM
      refine ⟨this.1, fun hc => ?_⟩
      rw [(rowsAgree_tabulate r c a hr).2.1] at hc
      rw [this.2]
      exact hc

theorem multipliedBy_inv (A B M : Matrix) (hA : A.Accepted) (hB : B.Accepted)
    (hM : A.multipliedBy (Operand.matrix B) = Except.ok M) :
    M.RowsAgree ∧ (1 ≤ A.columns → 1 ≤ B.columns → 1 ≤ M.columns) := by
  obtain ⟨r, c, a, hr, rfl⟩ := exists_tabulate_of_accepted A hA
  obtain ⟨r', k, b, hr', rfl⟩ := exists_tabulate_of_accepted B hB
  rw [(rowsAgree_tabulate r c a hr).2.1, (rowsAgree_tabulate r' k b hr').2.1]
  cases htag : (⟨tabulate r' k b⟩ : Matrix).getTypeOfMatrix with
  | error e =>
    rw [multipliedBy_typeFails _ _ e htag] at hM
    exact Except.noConfusion hM
  | ok tag =>
    by_cases hunit : tag = "unit"
    · subst hunit
      rw [multipliedBy_unit r c r' k a b hr htag] at hM
      have := inv_of_ok_tabulate M r c _ hr hM
      exact ⟨this.1, fun hc _ => by rw [this.2]; exact hc⟩
    · by_cases hconf : c = r'
      · subst hconf
        rw [multipliedBy_tabulate r c k a b hr hr' tag htag hunit] at hM
        have := inv_of_ok_tabulate M r k _ hr hM
        exact ⟨this.1, fun _ hk => by rw [this.2]; exact hk⟩
      · rw [multipliedBy_notConformal r c r' k a b hr hr' tag htag hunit hconf] at hM
        exact Except.noConfusion hM

theorem getTranspose_inv (A M : Matrix) (hA : A.Accepted)
    (hM : A.getTranspose = Except.ok M) : M.RowsAgree ∧ 1 ≤ M.columns := by
  obtain ⟨r, c, a, hr, rfl⟩ := exists_tabulate_of_accepted A hA
  by_cases hc : c = 0
  · subst hc
    rw [getTranspose_noColumns r a hr] at hM
    exact Except.noConfusion hM
  · have hc1 : 1 ≤ c := by omega
    rw [getTranspose_tabulate r c a hr hc1] at hM
    have := inv_of_ok_tabulate M c r _ hc1 hM
    exact ⟨this.1, by rw [this.2]; exact hr⟩

theorem tabulate_one_one_cases (r c : Nat) (h1 : r = c) (h2 : ¬ 2 ≤ r) (hr : 1 ≤ r) :
    r = 1 ∧ c = 1 := by
  omega

theorem getMinor_inv (A M : Matrix) (tr tc : Nat) (hA : A.Accepted)
    (hM : A.getMinor tr tc = Except.ok M) : M.RowsAgree ∧ 1 ≤ M.columns := by
  obtain ⟨r, c, a, hr, rfl⟩ := exists_tabulate_of_accepted A hA
  by_cases hsq : r = c
  · by_cases h2 : 2 ≤ r
    · subst hsq
      rw [getMinor_tabulate r a h2 tr tc] at hM
      have := inv_of_ok_tabulate M _ _ _ (one_le_minorSize r tr h2) hM
      exact ⟨this.1, by rw [this.2]; exact one_le_minorSize r tc h2⟩
    · obtain ⟨rfl, rfl⟩ := tabulate_one_one_cases r c hsq h2 hr
      rw [getMinor_one a tr tc] at hM
      have := inv_of_ok_tabulate M 1 1 _ (le_refl 1) hM
      exact ⟨this.1, by rw [this.2]⟩
  · rw [getMinor_notSquare r c a hr hsq tr tc] at hM
    exact Except.noConfusion hM

theorem getInverse_inv (A M : Matrix) (hA : A.Accepted)
    (hM : A.getInverse = Except.ok M) : M.RowsAgree ∧ 1 ≤ M.columns := by
  obtain ⟨r, c, a, hr, rfl⟩ := exists_tabulate_of_accepted A hA
  by_cases hsq : r = c
  · by_cases hd : (squareOf r a).det = 0
    · subst hsq
      rw [getInverse_singular r a hr hd] at hM
      exact Except.noConfusion hM
    · by_cases h2 : 2 ≤ r
      · subst hsq
        rw [getInverse_tabulate r a h2 hd] at hM
        have := inv_of_ok_tabulate M r r _ hr hM
        exact ⟨this.1, by rw [this.2]; exact hr⟩
      · obtain ⟨rfl, rfl⟩ := tabulate_one_one_cases r c hsq h2 hr
        rw [getInverse_one a hd, singleton_eq_tabulate (1 / a 0 0)] at hM
        have := inv_of_ok_tabulate M 1 1 _ (le_refl 1) hM
        exact ⟨this.1, by rw [this.2]⟩
  · rw [getInverse_notSquare r c a hr hsq] at hM
    exact Except.noConfusion hM

theorem getAdjoint_inv (A M : Matrix) (hA : A.Accepted)
    (hM : A.getAdjoint = Except.ok M) : M.RowsAgree ∧ 1 ≤ M.columns := by
  obtain ⟨r, c, a, hr, rfl⟩ := exists_tabulate_of_accepted A hA
  by_cases hsq : r = c
  · by_cases h2 : 2 ≤ r
    · subst hsq
      rw [getAdjoint_tabulate r a h2] at hM
      have := inv_of_ok_tabulate M r r _ hr hM
      exact ⟨this.1, by rw [this.2]; exact hr⟩
    · obtain ⟨rfl, rfl⟩ := tabulate_one_one_cases r c hsq h2 hr
      rw [getAdjoint_one a, singleton_eq_tabulate (1 : ℚ)] at hM
      have := inv_of_ok_tabulate M 1 1 _ (le_refl 1) hM
      exact ⟨this.1, by rw [this.2]⟩
  · rw [getAdjoint_notSquare r c a hr hsq] at hM
    exact Except.noConfusion hM

/-- C6 (amended). Every matrix that the constructor accepts, and every matrix that
`plus`, `minus`, `scalarMultiplyBy`, `multipliedBy`, `getTranspose`, `getMinor`,
`getInverse` and `getAdjoint` return on accepted matrices, has at least one row and
rows that all have as many cells as the column count.  The column count of an
accepted matrix is the length of the first row of the argument (so it is at least 1
when that row is not empty); it is at least 1 for every result of `getTranspose`,
`getMinor`, `getInverse` and `getAdjoint`, and for the results of `plus`, `minus`,
`scalarMultiplyBy` and `multipliedBy` when the matrices they are given have at least
one column. -/
theorem results_keep_invariant :
    (∀ m : Matrix, m.Accepted → m.RowsAgree) ∧
    (∀ array m, Matrix.new array = Except.ok m →
      m.columns = ((array.elems.headD JSVal.undefined).elems).length) ∧
    (∀ A B M : Matrix, A.Accepted → B.Accepted → A.plus (Operand.matrix B) = Except.ok M →
      M.RowsAgree ∧ (1 ≤ A.columns → 1 ≤ M.columns)) ∧
    (∀ A B M : Matrix, A.Accepted → B.Accepted → A.minus (Operand.matrix B) = Except.ok M →
      M.RowsAgree ∧ (1 ≤ A.columns → 1 ≤ M.columns)) ∧
    (∀ (A M : Matrix) (number : JSVal), A.Accepted → A.scalarMultiplyBy number = Except.ok M →
      M.RowsAgree ∧ (1 ≤ A.columns → 1 ≤ M.columns)) ∧
    (∀ A B M : Matrix, A.Accepted → B.Accepted →
      A.multipliedBy (Operand.matrix B) = Except.ok M →
      M.RowsAgree ∧ (1 ≤ A.columns → 1 ≤ B.columns → 1 ≤ M.columns)) ∧
    (∀ A M : Matrix, A.Accepted → A.getTranspose = Except.ok M →
      M.RowsAgree ∧ 1 ≤ M.columns) ∧
    (∀ (A M : Matrix) (targetRow targetColumn : Nat), A.Accepted →
      A.getMinor targetRow targetColumn = Except.ok M → M.RowsAgree ∧ 1 ≤ M.columns) ∧
    (∀ A M : Matrix, A.Accepted → A.getInverse = Except.ok M →
      M.RowsAgree ∧ 1 ≤ M.columns) ∧
    (∀ A M : Matrix, A.Accepted → A.getAdjoint = Except.ok M →
      M.RowsAgree ∧ 1 ≤ M.columns) := by
  refine ⟨?_, columns_of_new, ?_, ?_, ?_, multipliedBy_inv, getTranspose_inv, ?_,
    getInverse_inv, getAdjoint_inv⟩
  · intro m hm
    obtain ⟨r, c, a, hr, rfl⟩ := exists_tabulate_of_accepted m hm
    exact (rowsAgree_tabulate r c a hr).1
  · intro A B M hA hB hM
    exact cellwise_inv _ A B M hA hB hM
  · intro A B M hA hB hM
    exact cellwise_inv _ A B M hA hB hM
  · intro A M number hA hM
    exact scalarMultiplyBy_inv A M number hA hM
  · intro A M tr tc hA hM
    exact getMinor_inv A M tr tc hA hM

/-- C6 as stated fails: the constructor accepts `[[]]`, whose column count is `0`. -/
theorem constructor_accepts_empty_row :
    Matrix.new (JSVal.arr [JSVal.arr []]) = Except.ok ⟨[[]]⟩ ∧
    (⟨[[]]⟩ : Matrix).getDimensions = Except.ok (1, 0) ∧
    ¬ 1 ≤ (⟨[[]]⟩ : Matrix).columns :=
  ⟨by decide, by decide, by decide⟩

/-- C6 (amended) at the matrices of the repository's test: the sum of
`[[1,2],[3,4]]` and `[[5,6],[7,8]]` has two rows of two cells. -/
theorem results_keep_invariant_witness :
    (⟨[[6, 8], [10, 12]]⟩ : Matrix).RowsAgree ∧ 1 ≤ (⟨[[6, 8], [10, 12]]⟩ : Matrix).columns := by
  have h := results_keep_invariant.2.2.1 ⟨[[1, 2], [3, 4]]⟩ ⟨[[5, 6], [7, 8]]⟩
    ⟨[[6, 8], [10, 12]]⟩ (accepted_of_hasShape _ 2 2 (by decide) (by decide))
    (accepted_of_hasShape _ 2 2 (by decide) (by decide)) (by decide!)
  exact ⟨h.1, h.2 (by decide)⟩

end MatrixAndSets

namespace MatrixAndSets

/-- C11. For a matrix of `r ≥ 1` rows and `c` columns and an integer index `i`:
`getRow(i)` fails if and only if `i < 0` or `i ≥ r`, and otherwise returns row `i`
with its `c` cells; `getColumn(i)` fails if and only if `i < 0` or `i ≥ c`, and
otherwise returns the sequence of length `r` whose `k`-th element is the cell
`[k][i]`. -/
theorem getRow_getColumn_bounds (A : Matrix) (r c : Nat) (hr : 1 ≤ r) (hA : A.HasShape r c)
    (i : Int) :
    ((∃ e, A.getRow i = Except.error e) ↔ (i < 0 ∨ (r : Int) ≤ i)) ∧
    (0 ≤ i → i < (r : Int) → ∃ row, A.getRow i = Except.ok (some row) ∧
      A.arr[i.toNat]? = some row ∧ row.length = c ∧
      ∀ j, j < c → row[j]? = some (A.entry i.toNat j)) ∧
    ((∃ e, A.getColumn i = Except.error e) ↔ (i < 0 ∨ (c : Int) ≤ i)) ∧
    (0 ≤ i → i < (c : Int) → ∃ column, A.getColumn i = Except.ok column ∧
      column.length = r ∧
      ∀ k, k < r → column[k]? = some (some (A.entry k i.toNat)) ∧
        A.cell k i.toNat = Except.ok (some (A.entry k i.toNat))) := by
  have hEq := eq_tabulate_of_hasShape A r c hA
  have hrow : ∀ h0 : 0 ≤ i, ∀ h1 : i < (r : Int),
      A.getRow i = Except.ok (some ((List.range c).map (fun j => A.entry i.toNat j))) := by
    intro h0 h1
    conv_lhs => rw [hEq]
    exact getRow_tabulate r c A.entry hr i h0 h1
  have hcol : ∀ h0 : 0 ≤ i, ∀ h1 : i < (c : Int),
      A.getColumn i = Except.ok ((List.range r).map (fun k => some (A.entry k i.toNat))) := by
    intro h0 h1
    conv_lhs => rw [hEq]
    exact getColumn_tabulate r c A.entry hr i h0 h1
  refine ⟨?_, ?_, ?_, ?_⟩
  · constructor
    · rintro ⟨e, he⟩
      by_contra hcon
      rw [hrow (by omega) (by omega)] at he
      exact Except.noConfusion he
    · intro h
      refine ⟨Err.error "Invalid index", ?_⟩
      conv_lhs => rw [hEq]
      exact getRow_invalid r c A.entry hr i h
  · intro h0 h1
    have hi : i.toNat < r := by omega
    refine ⟨_, hrow h0 h1, ?_, by simp, ?_⟩
    · conv_lhs => rw [hEq]
      simp [tabulate_getElem?, hi]
    · intro j hj
      simp [List.getElem?_map, List.getElem?_range hj]
  · constructor
    · rintro ⟨e, he⟩
      by_contra hcon
      rw [hcol (by omega) (by omega)] at he
      exact Except.noConfusion he
    · intro h
      refine ⟨Err.error "Invalid index", ?_⟩
      conv_lhs => rw [hEq]
      exact getColumn_invalid r c A.entry hr i h
  · intro h0 h1
    have hi : i.toNat < c := by omega
    refine ⟨_, hcol h0 h1, by simp, ?_⟩
    intro k hk
    exact ⟨by simp [List.getElem?_map, List.getElem?_range hk],
      cell_of_hasShape A r c hA k i.toNat hk hi⟩

/-- C11 at the 2×3 matrix `[[1,2,3],[4,5,6]]`: `getRow(3)` fails, `getRow(1)` is
`[4, 5, 6]` and `getColumn(2)` is `[3, 6]`. -/
theorem getRow_getColumn_bounds_witness :
    (∃ e, (⟨[[1, 2, 3], [4, 5, 6]]⟩ : Matrix).getRow 3 = Except.error e) ∧
    (⟨[[1, 2, 3], [4, 5, 6]]⟩ : Matrix).getRow 1 = Except.ok (some [4, 5, 6]) ∧
    (⟨[[1, 2, 3], [4, 5, 6]]⟩ : Matrix).getColumn 2 = Except.ok [some 3, some 6] :=
  ⟨((getRow_getColumn_bounds ⟨[[1, 2, 3], [4, 5, 6]]⟩ 2 3 (by decide) (by decide) 3).1).mpr
    (Or.inr (by decide)), by decide, by decide⟩

/-- C12. For two matrices `A` and `B`: `A.plus(B)` and `A.minus(B)` fail with
"Matrices must be conformal" when the dimensions differ, and otherwise return a matrix
of the same dimensions whose cell `[i][j]` is `A[i][j] + B[i][j]`, respectively
`A[i][j] − B[i][j]`. -/
theorem plus_minus_cellwise (A B : Matrix) (r c r' c' : Nat) (hr : 1 ≤ r) (hr' : 1 ≤ r')
    (hA : A.HasShape r c) (hB : B.HasShape r' c') :
    (¬ (r = r' ∧ c = c') →
      A.plus (Operand.matrix B) = Except.error (Err.error "Matrices must be conformal") ∧
      A.minus (Operand.matrix B) = Except.error (Err.error "Matrices must be conformal")) ∧
    (r = r' ∧ c = c' → ∃ S D, A.plus (Operand.matrix B) = Except.ok S ∧
      A.minus (Operand.matrix B) = Except.ok D ∧ S.HasShape r c ∧ D.HasShape r c ∧
      ∀ i j, i < r → j < c →
        S.cell i j = Except.ok (some (A.entry i j + B.entry i j)) ∧
        D.cell i j = Except.ok (some (A.entry i j - B.entry i j))) := by
  have hEqA := eq_tabulate_of_hasShape A r c hA
  have hEqB := eq_tabulate_of_hasShape B r' c' hB
  refine ⟨fun h => ⟨?_, ?_⟩, ?_⟩
  · rw [hEqA, hEqB]
    exact cellwise_notConformal _ r c r' c' _ _ hr hr' h
  · rw [hEqA, hEqB]
    exact cellwise_notConformal _ r c r' c' _ _ hr hr' h
  · rintro ⟨rfl, rfl⟩
    refine ⟨⟨tabulate r c (fun i j => A.entry i j + B.entry i j)⟩,
      ⟨tabulate r c (fun i j => A.entry i j - B.entry i j)⟩, ?_, ?_,
      hasShape_tabulate r c _, hasShape_tabulate r c _, ?_⟩
    · conv_lhs => rw [hEqA, hEqB]
      exact cellwise_tabulate _ r c A.entry B.entry hr
    · conv_lhs => rw [hEqA, hEqB]
      exact cellwise_tabulate _ r c A.entry B.entry hr
    · intro i j hi hj
      exact ⟨cell_tabulate r c _ i j hi hj, cell_tabulate r c _ i j hi hj⟩

/-- C12 at the matrices of the repository's test: `[[1,2],[3,4]]` plus
`[[5,6],[7,8]]` is `[[6,8],[10,12]]`, and a 2×2 matrix plus a 1×2 matrix fails. -/
theorem plus_minus_cellwise_witness :
    (⟨[[1, 2], [3, 4]]⟩ : Matrix).plus (Operand.matrix ⟨[[5, 6], [7, 8]]⟩) =
      Except.ok ⟨[[6, 8], [10, 12]]⟩ ∧
    (⟨[[1, 2], [3, 4]]⟩ : Matrix).plus (Operand.matrix ⟨[[5, 6]]⟩) =
      Except.error (Err.error "Matrices must be conformal") :=
  ⟨by decide!,
    ((plus_minus_cellwise ⟨[[1, 2], [3, 4]]⟩ ⟨[[5, 6]]⟩ 2 2 1 2 (by decide) (by decide)
      (by decide) (by decide)).1 (by decide)).1⟩

/-- C13, at its own examples: `scalarMultiplyBy("2")`, `scalarMultiplyBy(null)` and
`scalarMultiplyBy(true)` do not fail; `isNaN` coerces its argument, so they return the
matrix scaled by `2`, `0` and `1`.  Only an argument that coerces to `NaN`, such as
`undefined`, is refused, whereas `Vector.multiplyByScalar` refuses every argument
that is not of type number. -/
theorem scalarMultiplyBy_coerces_its_argument :
    (⟨[[1, 2], [3, 4]]⟩ : Matrix).scalarMultiplyBy (JSVal.str "2") =
      Except.ok ⟨[[2, 4], [6, 8]]⟩ ∧
    (⟨[[1, 2], [3, 4]]⟩ : Matrix).scalarMultiplyBy JSVal.null =
      Except.ok ⟨[[0, 0], [0, 0]]⟩ ∧
    (⟨[[1, 2], [3, 4]]⟩ : Matrix).scalarMultiplyBy (JSVal.bool true) =
      Except.ok ⟨[[1, 2], [3, 4]]⟩ ∧
    (⟨[[1, 2], [3, 4]]⟩ : Matrix).scalarMultiplyBy JSVal.undefined =
      Except.error (Err.error "Value must be a number") ∧
    (⟨[1, 2]⟩ : Vector ℚ).multiplyByScalar none =
      Except.error (Err.error "Value must be a number") :=
  ⟨by decide!, by decide!, by decide!, by decide!, by decide!⟩

/-- C14. For a square matrix, `isDiagonal()` returns `true` if and only if no cell
`[i][i]` of the leading diagonal is `0` and every cell `[i][j]` with `i ≠ j` is `0`;
so a square matrix with a `0` on its diagonal is classified as not diagonal. -/
theorem isDiagonal_square_iff (A : Matrix) (n : Nat) (hn : 1 ≤ n) (hA : A.HasShape n n) :
    ∃ b, A.isDiagonal = Except.ok b ∧
      (b = true ↔ (∀ i, i < n → A.entry i i ≠ 0) ∧
        ∀ i j, i < n → j < n → i ≠ j → A.entry i j = 0) ∧
      ((∃ i, i < n ∧ A.entry i i = 0) → b = false) := by
  obtain ⟨b, hb, hiff⟩ := isDiagonal_square n A.entry hn
  rw [← eq_tabulate_of_hasShape A n n hA] at hb
  refine ⟨b, hb, hiff, ?_⟩
  rintro ⟨i, hi, h0⟩
  cases hbv : b with
  | false => rfl
  | true => exact absurd h0 ((hiff.mp hbv).1 i hi)

/-- C14 at the all-zero 2×2 matrix, which is classified as not diagonal, and at
`[[3,0],[0,2]]`, which is diagonal. -/
theorem isDiagonal_square_iff_witness :
    (⟨[[0, 0], [0, 0]]⟩ : Matrix).isDiagonal = Except.ok false ∧
    (⟨[[3, 0], [0, 2]]⟩ : Matrix).isDiagonal = Except.ok true ∧
    ∃ b, (⟨[[0, 0], [0, 0]]⟩ : Matrix).isDiagonal = Except.ok b ∧ b = false := by
  refine ⟨by decide, by decide, ?_⟩
  obtain ⟨b, hb, _, hz⟩ :=
    isDiagonal_square_iff ⟨[[0, 0], [0, 0]]⟩ 2 (by decide) (by decide)
  exact ⟨b, hb, hz ⟨0, by decide, by decide⟩⟩

end MatrixAndSets

namespace MatrixAndSets

/-- C15. For two vectors `u` and `v`: `u.add(v)` and `u.subtract(v)` fail with
"Vectors must be of the same dimension" when the lengths differ, and otherwise return
a vector of the same length whose `i`-th element is `u[i] + v[i]`, respectively
`u[i] − v[i]`. -/
theorem vector_add_subtract {R : Type} [Field R] (u v : Vector R) (hu : u.arr ≠ []) :
    (u.arr.length ≠ v.arr.length →
      u.add (VectorOperand.vector v) =
        Except.error (Err.error "Vectors must be of the same dimension") ∧
      u.subtract (VectorOperand.vector v) =
        Except.error (Err.error "Vectors must be of the same dimension")) ∧
    (u.arr.length = v.arr.length → ∃ s d, u.add (VectorOperand.vector v) = Except.ok s ∧
      u.subtract (VectorOperand.vector v) = Except.ok d ∧
      s.arr.length = u.arr.length ∧ d.arr.length = u.arr.length ∧
      ∀ (i : Nat) (x y : R), u.arr[i]? = some x → v.arr[i]? = some y →
        s.arr[i]? = some (x + y) ∧ d.arr[i]? = some (x - y)) := by
  refine ⟨fun h => ⟨Vector.add_mismatch u v h, Vector.subtract_mismatch u v h⟩, fun h => ?_⟩
  refine ⟨_, _, Vector.add_ok u v hu h, Vector.subtract_ok u v hu h, ?_, ?_, ?_⟩
  · simp [List.length_zipWith, h]
  · simp [List.length_zipWith, h]
  · intro i x y hx hy
    simp [List.getElem?_zipWith, hx, hy]

/-- C15 at the vectors of the repository's test: `[1,2,3]` add `[4,5,6]` is
`[5,7,9]`. -/
theorem vector_add_subtract_witness :
    (⟨[1, 2, 3]⟩ : Vector ℚ).add (VectorOperand.vector ⟨[4, 5, 6]⟩) = Except.ok ⟨[5, 7, 9]⟩ ∧
    (⟨[1, 2, 3]⟩ : Vector ℚ).add (VectorOperand.vector ⟨[4, 5]⟩) =
      Except.error (Err.error "Vectors must be of the same dimension") :=
  ⟨by decide!,
    ((vector_add_subtract (⟨[1, 2, 3]⟩ : Vector ℚ) ⟨[4, 5]⟩ (by decide)).1 (by decide)).1⟩

/-- C16. For two vectors `u` and `v`: `u.dotProduct(v)` fails when the lengths differ,
and otherwise returns the sum over all positions `i` of `u[i]·v[i]`. -/
theorem vector_dotProduct {R : Type} [Field R] (u v : Vector R) :
    (u.arr.length ≠ v.arr.length →
      u.dotProduct (VectorOperand.vector v) =
        Except.error (Err.error "Vectors must be of the same dimension")) ∧
    (u.arr.length = v.arr.length →
      u.dotProduct (VectorOperand.vector v) =
        Except.ok (List.zipWith (fun x y => x * y) u.arr v.arr).sum) :=
  ⟨Vector.dotProduct_mismatch u v, Vector.dotProduct_ok u v⟩

/-- C16 at the vectors of the repository's test: the dot product of `[1,2,3]` and
`[4,5,6]` is `32`. -/
theorem vector_dotProduct_witness :
    (⟨[1, 2, 3]⟩ : Vector ℚ).dotProduct (VectorOperand.vector ⟨[4, 5, 6]⟩) = Except.ok 32 := by
  rw [(vector_dotProduct (⟨[1, 2, 3]⟩ : Vector ℚ) ⟨[4, 5, 6]⟩).2 rfl]
  norm_num

/-- C17. For a vector `v` over the reals, `v.magnitude()` is the square root of the
sum of the squares of its elements, which is the square root of `v.dotProduct(v)`,
and it is not negative. -/
theorem magnitude_is_euclidean_norm (v : Vector ℝ) :
    v.magnitude Real.sqrt = Real.sqrt ((v.arr.map (fun x => x ^ 2)).sum) ∧
    (∃ d, v.dotProduct (VectorOperand.vector v) = Except.ok d ∧
      v.magnitude Real.sqrt = Real.sqrt d) ∧
    0 ≤ v.magnitude Real.sqrt := by
  refine ⟨?_, ⟨_, Vector.dotProduct_ok v v rfl, ?_⟩, ?_⟩
  · rw [Vector.magnitude_real]
    congr 2
    apply List.map_congr_left
    intro x _
    ring
  · rw [Vector.magnitude_real, zipWith_self_mul]
  · rw [Vector.magnitude_real]
    exact Real.sqrt_nonneg _

/-- C17 at the vector of the repository's test: the magnitude of `[3,4]` is `5`. -/
theorem magnitude_is_euclidean_norm_witness :
    (⟨[3, 4]⟩ : Vector ℝ).magnitude Real.sqrt = 5 := by
  rw [(magnitude_is_euclidean_norm ⟨[3, 4]⟩).1]
  have h : (([3, 4] : List ℝ).map (fun x => x ^ 2)).sum = 5 ^ 2 := by norm_num
  show Real.sqrt ((([3, 4] : List ℝ).map (fun x => x ^ 2)).sum) = 5
  rw [h]
  exact Real.sqrt_sq (by norm_num)

/-- C19. For two sets `A` and `B`, `A.union(B)` has no duplicate element, holds an
element if and only if `A` or `B` holds it, and iterates the elements of `A` in the
order of `A`, followed by the elements of `B` that are not in `A`, in the order of
`B`. -/
theorem union_is_ordered_union {α : Type} [DecidableEq α] (A B : ExtendedSet α)
    (hA : A.items.Nodup) (hB : B.items.Nodup) :
    (A.union B).items.Nodup ∧
    (∀ x, (A.union B).has x = true ↔ (A.has x = true ∨ B.has x = true)) ∧
    (A.union B).items = A.items ++ B.items.filter (fun x => !A.has x) := by
  have hitems := ExtendedSet.union_items A B hA hB
  refine ⟨?_, ?_, hitems⟩
  · rw [hitems]
    refine List.Nodup.append hA (hB.filter _) ?_
    intro x hxA hxB
    have := (List.mem_filter.mp hxB).2
    simp [ExtendedSet.has, hxA] at this
  · intro x
    simp only [ExtendedSet.has, hitems, decide_eq_true_eq, List.mem_append, List.mem_filter,
      Bool.not_eq_true', decide_eq_false_iff_not]
    constructor
    · rintro (h | ⟨h, _⟩)
      · exact Or.inl h
      · exact Or.inr h
    · rintro (h | h)
      · exact Or.inl h
      · by_cases hxA : x ∈ A.items
        · exact Or.inl hxA
        · exact Or.inr ⟨h, hxA⟩

/-- C19 at the sets of the repository's test: `{1,2}` union `{2,3}` iterates as
`[1,2,3]`. -/
theorem union_is_ordered_union_witness :
    ((ExtendedSet.new [1, 2] : ExtendedSet Nat).union (ExtendedSet.new [2, 3])).items =
      [1, 2, 3] := by
  rw [(union_is_ordered_union (ExtendedSet.new [1, 2] : ExtendedSet Nat)
    (ExtendedSet.new [2, 3]) (by decide) (by decide)).2.2]
  decide

/-- C20. For two sets `A` and `B`, `A.intersection(B)` iterates exactly the elements of
`A` that `B` holds and `A.difference(B)` exactly the elements of `A` that `B` does not
hold, each in the order of `A` and without duplicates; the two results have no
element in common and together hold exactly the elements of `A`. -/
theorem intersection_difference_partition {α : Type} [DecidableEq α]
    (A B : ExtendedSet α) (hA : A.items.Nodup) :
    (A.intersection B).items = A.items.filter (fun x => B.has x) ∧
    (A.difference B).items = A.items.filter (fun x => !B.has x) ∧
    (A.intersection B).items.Nodup ∧ (A.difference B).items.Nodup ∧
    (∀ x, ¬ ((A.intersection B).has x = true ∧ (A.difference B).has x = true)) ∧
    (∀ x, A.has x = true ↔
      ((A.intersection B).has x = true ∨ (A.difference B).has x = true)) := by
  have hi := ExtendedSet.intersection_items A B hA
  have hd := ExtendedSet.difference_items A B hA
  refine ⟨hi, hd, by rw [hi]; exact hA.filter _, by rw [hd]; exact hA.filter _, ?_, ?_⟩
  · intro x
    simp only [ExtendedSet.has, hi, hd, decide_eq_true_eq, List.mem_filter,
      Bool.not_eq_true', decide_eq_false_iff_not]
    rintro ⟨⟨_, h1⟩, ⟨_, h2⟩⟩
    exact h2 h1
  · intro x
    simp only [ExtendedSet.has, hi, hd, decide_eq_true_eq, List.mem_filter,
      Bool.not_eq_true', decide_eq_false_iff_not]
    constructor
    · intro h
      by_cases hB : x ∈ B.items
      · exact Or.inl ⟨h, hB⟩
      · exact Or.inr ⟨h, hB⟩
    · rintro (h | h)
      · exact h.1
      · exact h.1

/-- C20 at the sets of the repository's test: for `A = {1,2,3}` and `B = {2,3,4}` the
intersection iterates as `[2,3]` and the difference as `[1]`. -/
theorem intersection_difference_partition_witness :
    ((ExtendedSet.new [1, 2, 3] : ExtendedSet Nat).intersection
      (ExtendedSet.new [2, 3, 4])).items = [2, 3] ∧
    ((ExtendedSet.new [1, 2, 3] : ExtendedSet Nat).difference
      (ExtendedSet.new [2, 3, 4])).items = [1] := by
  have h := intersection_difference_partition (ExtendedSet.new [1, 2, 3] : ExtendedSet Nat)
    (ExtendedSet.new [2, 3, 4]) (by decide)
  refine ⟨?_, ?_⟩
  · rw [h.1]
    decide
  · rw [h.2.1]
    decide

end MatrixAndSets

namespace MatrixAndSets

/-- C22. For a matrix of `r ≥ 1` rows and `c` columns, `isDiagonal()` returns a boolean
if and only if `c ≤ r`; when `c > r` the read of `this.arr[r][0]` throws and so does
the call.  Every row that the walk reads exists exactly when `c ≤ r`. -/
theorem isDiagonal_completes_iff (A : Matrix) (r c : Nat) (hr : 1 ≤ r)
    (hA : A.HasShape r c) :
    ((∃ b, A.isDiagonal = Except.ok b) ↔ c ≤ r) ∧
    (r < c → A.cell r 0 = Except.error Err.typeError ∧
      A.isDiagonal = Except.error Err.typeError) ∧
    ((∀ i j, i < c → j < r → j ≠ i → ∃ x, A.cell i j = Except.ok x) ↔ c ≤ r) := by
  have hEq := eq_tabulate_of_hasShape A r c hA
  have hthrow : r < c → A.isDiagonal = Except.error Err.typeError := by
    intro h
    conv_lhs => rw [hEq]
    exact isDiagonal_throws r c A.entry hr h
  have hcell : A.cell r 0 = Except.error Err.typeError := by
    conv_lhs => rw [hEq]
    exact readCell_tabulate_row r c A.entry r 0 (le_refl r)
  refine ⟨⟨?_, ?_⟩, fun h => ⟨hcell, hthrow h⟩, ⟨?_, ?_⟩⟩
  · rintro ⟨b, hb⟩
    by_contra hcon
    rw [hthrow (by omega)] at hb
    exact Except.noConfusion hb
  · intro h
    rw [hEq]
    exact isDiagonal_completes r c A.entry hr h
  · intro h
    by_contra hcon
    obtain ⟨x, hx⟩ := h r 0 (by omega) (by omega) (by omega)
    rw [hcell] at hx
    exact Except.noConfusion hx
  · intro h i j hi _ _
    refine ⟨if j < c then some (A.entry i j) else none, ?_⟩
    conv_lhs => rw [hEq]
    exact cell_tabulate_any r c A.entry i j (by omega)

/-- C22 at the 2×3 matrix `[[1,2,3],[4,5,6]]`, on which `isDiagonal()` throws, and at
the 3×2 matrix `[[1,2],[4,5],[3,3]]`, on which it returns `false`. -/
theorem isDiagonal_completes_iff_witness :
    (⟨[[1, 2, 3], [4, 5, 6]]⟩ : Matrix).isDiagonal = Except.error Err.typeError ∧
    (⟨[[1, 2], [4, 5], [3, 3]]⟩ : Matrix).isDiagonal = Except.ok false ∧
    ∃ b, (⟨[[1, 2], [4, 5], [3, 3]]⟩ : Matrix).isDiagonal = Except.ok b :=
  ⟨((isDiagonal_completes_iff ⟨[[1, 2, 3], [4, 5, 6]]⟩ 2 3 (by decide) (by decide)).2.1
      (by decide)).2,
    by decide,
    ((isDiagonal_completes_iff ⟨[[1, 2], [4, 5], [3, 3]]⟩ 3 2 (by decide) (by decide)).1).mpr
      (by decide)⟩

end MatrixAndSets
